import Mathlib

/-!
# goengage: the request/response pipeline and the resource operations

A shallow embedding of the Go package `goengage` (config.go, engage.go, inputs.go,
users.go, lists.go).

Conventions of the embedding:

* a Go `string` is a Lean `String`; a nilable pointer `*T` is an `Option T`; a slice or a
  map is a `List` (the nil slice and the nil map are `[]`);
* a Go function returning `(*T, error)` returns a record with an `Option T` result and an
  `Option GoError` error, so that "nil result" and "nil error" are both expressible;
* the standard library (net/http, encoding/json, os) is outside the package: its functions
  are the fields of `Lib`, and every call the package makes to them is recorded, in order,
  in the `calls` of the returned record;
* what `json.Marshal` writes for the five input structs is also given from their struct
  tags (`encodeCreateUserInput` and its siblings, over the encoders of `JSONEncoder`), and
  `Lib.marshalsWith` states that a standard library serialises in that way;
* a nil-pointer dereference is the outcome `Run.panic`;
* the receivers (`*Client`, `*Users`, `*Lists`) are taken non-nil, and a `Client` has the
  non-nil `credentials` and `httpClient` that `New` gives it;
* a method of users.go or lists.go with a pointer input is given twice: `Users.Create` (and
  its siblings) on the struct the pointer refers to, and `UserService.Create` (and its
  siblings) on the pointer itself, where reading a nil input panics.
-/

set_option linter.dupNamespace false

namespace GoEngage

/-! ## Errors -/

/-- Struct `Error` of engage.go: the status code and the raw body of a failed call. -/
structure Error where
  Code : Int
  Message : String
  deriving DecidableEq, Repr

/-- Values of the Go interface `error` that reach a caller of the package:
`errors.New`/`fmt.Errorf` strings, the package's own `Error`, and errors raised inside the
standard library. -/
inductive GoError where
  | errorString (s : String)
  | api (e : Error)
  | lib (pkg : String) (msg : String)
  deriving DecidableEq, Repr

/-- Method `Error()` of `Error`: `"Go Engage Error - Code: %v | Message: %v"`. -/
def Error.Error (e : Error) : String :=
  "Go Engage Error - Code: " ++ toString e.Code ++ " | Message: " ++ e.Message

/-- Outcome of running a Go function: it returns, or it panics. -/
inductive Run (α : Type) where
  | ret (a : α)
  | panic (msg : String)

/-- Message of the runtime panic raised by dereferencing a nil pointer. -/
def nilDeref : String := "runtime error: invalid memory address or nil pointer dereference"

/-! ## net/http as seen by the package -/

/-- An `*http.Request`: the arguments it was built from, the credential pair attached by
`SetBasicAuth`, and the headers set on it. -/
structure Request where
  Method : String
  URL : String
  Body : Option String
  BasicAuth : Option (String × String)
  Header : List (String × String)
  deriving DecidableEq, Repr

/-- An `*http.Response`: the status code, and what `ioutil.ReadAll(resp.Body)` yields. -/
structure Response where
  StatusCode : Int
  Body : Except GoError String

/-- An `*http.Client`: what `Do` answers to a request, and the timeout (nanoseconds). -/
structure HTTPClient where
  Do : Request → Except GoError Response
  Timeout : Nat

/-- Call `Header.Set`: replaces the values of the key. -/
def Request.setHeader (req : Request) (key value : String) : Request :=
  { req with Header := req.Header.filter (fun kv => kv.1 != key) ++ [(key, value)] }

/-- Call `SetBasicAuth`. -/
def Request.SetBasicAuth (req : Request) (username password : String) : Request :=
  { req with BasicAuth := some (username, password) }

/-- Calls the package makes into the standard library, as recorded in a trace. -/
inductive Call where
  | jsonMarshal
  | httpNewRequest (method : String) (url : String) (body : Option String)
  | httpDo (req : Request)
  | jsonUnmarshal (body : String)
  deriving DecidableEq, Repr

/-- Function `strings.HasPrefix`. -/
def strings.HasPrefix (s pre : String) : Bool :=
  pre.data.isPrefixOf s.data

/-! ## config.go -/

/-- Struct `Credentials` of config.go. -/
structure Credentials where
  publicKey : String
  privateKey : String
  deriving DecidableEq, Repr

/-- Struct `Config` of config.go. -/
structure Config where
  Credentials : Option Credentials
  HTTPClient : Option HTTPClient

/-- Function `NewConfig`: a blank config. -/
def NewConfig : Config :=
  { Credentials := none, HTTPClient := none }

/-- Method `WithHttpClient`. -/
def Config.WithHttpClient (c : Config) (client : Option GoEngage.HTTPClient) : Config :=
  { c with HTTPClient := client }

/-- Method `WithCredentials`. -/
def Config.WithCredentials (c : Config) (credentials : Option GoEngage.Credentials) : Config :=
  { c with Credentials := credentials }

/-- Function `NewEnvCredentials`, over the process environment `getenv`. -/
def NewEnvCredentials (getenv : String → String) : Credentials :=
  { publicKey := getenv "ENGAGE_SO_PUBLIC_KEY", privateKey := getenv "ENGAGE_SO_PRIVATE_KEY" }

/-- Function `NewStaticCredentials`. -/
def NewStaticCredentials (publicKey privateKey : String) : Credentials :=
  { publicKey := publicKey, privateKey := privateKey }

/-! ## inputs.go -/

/-- A `time.Time`, as nanoseconds since the Unix epoch. -/
structure Time where
  unixNano : Int
  deriving DecidableEq, Repr

/-- A Go `interface{}` holding JSON data: null (the nil interface), a boolean, a number
(its literal text), a string, an array or an object. -/
inductive Value where
  | null
  | bool (b : Bool)
  | number (literal : String)
  | string (s : String)
  | array (items : List Value)
  | object (fields : List (String × Value))

/-- Struct `CreateUserInput`. -/
structure CreateUserInput where
  Id : String
  FirstName : Option String
  LastName : Option String
  Email : Option String
  Number : Option String
  Lists : List String
  DeviceToken : Option String
  DevicePlatform : Option String
  CreatedAt : Option Time
  Meta : List (String × Value)

/-- Struct `UpdateUserAttributesInput`. -/
structure UpdateUserAttributesInput where
  FirstName : Option String
  LastName : Option String
  Email : Option String
  Number : Option String
  Lists : List String
  DeviceToken : Option String
  DevicePlatform : Option String
  CreatedAt : Option Time
  Meta : List (String × Value)

/-- Struct `PaginatorInput`. -/
structure PaginatorInput where
  Limit : Option Int
  NextCursor : Option String
  PrevCursor : Option String
  deriving DecidableEq, Repr

/-- Struct `AddUserEvent`. -/
structure AddUserEvent where
  Event : String
  Value : GoEngage.Value
  Properties : List (String × GoEngage.Value)
  Timestamp : Option Time

/-- Struct `CreateUpdateListInput`. -/
structure CreateUpdateListInput where
  Title : Option String
  Description : Option String
  RedirectUrl : Option String
  DoubleOptIn : Option Bool
  deriving DecidableEq, Repr

/-- Struct `SubscribeListInput`. -/
structure SubscribeListInput where
  FirstName : Option String
  LastName : Option String
  Email : Option String
  Number : Option String
  CreatedAt : Option Time
  Meta : List (String × Value)

/-- Helper `String` of inputs.go: a pointer to its argument. -/
def Ptr.String (input : String) : Option String := some input

/-- Helper `Int` of inputs.go. -/
def Ptr.Int (input : Int) : Option Int := some input

/-- Helper `Bool` of inputs.go. -/
def Ptr.Bool (input : Bool) : Option Bool := some input

/-- Helper `Time` of inputs.go. -/
def Ptr.Time (input : Time) : Option Time := some input

/-! ## Output structs of users.go and lists.go -/

/-- Struct `UserDevice`. -/
structure UserDevice where
  Token : String
  Platform : String
  deriving DecidableEq, Repr

/-- Struct `UserList`. -/
structure UserList where
  Id : String
  Subscribed : Bool
  deriving DecidableEq, Repr

/-- Struct `UserSegment`. -/
structure UserSegment where
  Id : String
  Suppressed : Bool
  deriving DecidableEq, Repr

/-- Struct `UserOutput`. -/
structure UserOutput where
  Id : String
  Uid : String
  UidUpdatable : Bool
  FirstName : String
  LastName : String
  Number : String
  Email : String
  Devices : List UserDevice
  Lists : List UserList
  Segments : List UserSegment
  Meta : List (String × Value)
  CreatedAt : Time

/-- Struct `ListUserOutput`; `Data` is a slice of pointers. -/
structure ListUserOutput where
  Data : List (Option UserOutput)
  NextCursor : String
  PrevCursor : String

/-- Struct `ListOutput`. -/
structure ListOutput where
  Id : String
  Title : String
  Description : String
  SubscriberCount : Int
  BroadcastCount : Int
  DoubleOptIn : Bool
  RedirectUrl : String
  CreatedAt : Time
  deriving DecidableEq, Repr

/-- Struct `AllListOutput`; `Data` is a slice of pointers. -/
structure AllListOutput where
  Data : List (Option ListOutput)
  NextCursor : String
  PrevCursor : String
  deriving DecidableEq, Repr

/-- Struct `SubscribeListOutput`. -/
structure SubscribeListOutput where
  Uid : String
  deriving DecidableEq, Repr

/-- Zero value of `time.Time`: January 1 of the year 1, 00:00:00 UTC. -/
def Time.zero : Time := ⟨-62135596800000000000⟩

/-- Zero value declared by `var output UserOutput`. -/
def UserOutput.zero : UserOutput :=
  { Id := "", Uid := "", UidUpdatable := false, FirstName := "", LastName := "", Number := "",
    Email := "", Devices := [], Lists := [], Segments := [], Meta := [], CreatedAt := Time.zero }

/-- Zero value declared by `var output ListUserOutput`. -/
def ListUserOutput.zero : ListUserOutput :=
  { Data := [], NextCursor := "", PrevCursor := "" }

/-- Zero value declared by `var output ListOutput`. -/
def ListOutput.zero : ListOutput :=
  { Id := "", Title := "", Description := "", SubscriberCount := 0, BroadcastCount := 0,
    DoubleOptIn := false, RedirectUrl := "", CreatedAt := Time.zero }

/-- Zero value declared by `var output AllListOutput`. -/
def AllListOutput.zero : AllListOutput :=
  { Data := [], NextCursor := "", PrevCursor := "" }

/-- Zero value declared by `var output SubscribeListOutput`. -/
def SubscribeListOutput.zero : SubscribeListOutput :=
  { Uid := "" }

/-! ## The standard library -/

/-- The standard-library functions the package calls.

* `newRequestErr method url` is the error with which `http.NewRequest` rejects a method
  and URL, if it does;
* `defaultDo` is `Do` of an `http.Client` built without a transport;
* `marshalT` is `json.Marshal` at a `*T`;
* `unmarshalT body target` is `json.Unmarshal(body, &target)`: the target afterwards and
  the error. -/
structure Lib where
  newRequestErr : String → String → Option GoError
  defaultDo : Request → Except GoError Response
  marshalCreateUserInput : CreateUserInput → Except GoError String
  marshalUpdateUserAttributesInput : UpdateUserAttributesInput → Except GoError String
  marshalAddUserEvent : AddUserEvent → Except GoError String
  marshalCreateUpdateListInput : CreateUpdateListInput → Except GoError String
  marshalSubscribeListInput : SubscribeListInput → Except GoError String
  unmarshalUserOutput : String → UserOutput → UserOutput × Option GoError
  unmarshalListUserOutput : String → ListUserOutput → ListUserOutput × Option GoError
  unmarshalListOutput : String → ListOutput → ListOutput × Option GoError
  unmarshalAllListOutput : String → AllListOutput → AllListOutput × Option GoError
  unmarshalSubscribeListOutput :
    String → SubscribeListOutput → SubscribeListOutput × Option GoError
  unmarshalStringMap :
    String → List (String × String) → List (String × String) × Option GoError

/-- Function `http.NewRequest`: the request for a method, URL and body, or the error. -/
def Lib.NewRequest (lib : Lib) (method url : String) (body : Option String) :
    Except GoError Request :=
  match lib.newRequestErr method url with
  | some err => .error err
  | none => .ok { Method := method, URL := url, Body := body, BasicAuth := none, Header := [] }

/-! ## net/url and strconv, as far as `List` and `GetAllLists` use them -/

/-- Bytes of the UTF-8 encoding of a character. -/
def utf8Bytes (c : Char) : List Nat :=
  let n := c.toNat
  if n < 128 then [n]
  else if n < 2048 then [192 + n / 64, 128 + n % 64]
  else if n < 65536 then [224 + n / 4096, 128 + n / 64 % 64, 128 + n % 64]
  else [240 + n / 262144, 128 + n / 4096 % 64, 128 + n / 64 % 64, 128 + n % 64]

/-- Upper-case hexadecimal digit, as in `upperhex` of net/url. -/
def upperhex (n : Nat) : Char :=
  "0123456789ABCDEF".data.getD n '0'

/-- Bytes that `url.QueryEscape` leaves as they are: letters, digits, `-`, `_`, `.`, `~`. -/
def unreservedByte (b : Nat) : Bool :=
  (97 ≤ b && b ≤ 122) || (65 ≤ b && b ≤ 90) || (48 ≤ b && b ≤ 57) ||
    b == 45 || b == 95 || b == 46 || b == 126

/-- Escaping of one byte by `url.QueryEscape`. -/
def escapeByte (b : Nat) : List Char :=
  if b == 32 then ['+']
  else if unreservedByte b then [Char.ofNat b]
  else ['%', upperhex (b / 16), upperhex (b % 16)]

/-- Function `url.QueryEscape`. -/
def url.QueryEscape (s : String) : String :=
  ⟨(s.data.flatMap utf8Bytes).flatMap escapeByte⟩

/-- Function `strconv.Itoa`. -/
def strconv.Itoa (i : Int) : String :=
  toString i

/-- Type `url.Values`: the keys with their values, in order of first insertion. -/
abbrev url.Values := List (String × List String)

/-- Method `Add` of `url.Values`. -/
def url.Values.Add (v : url.Values) (key value : String) : url.Values :=
  if v.any (fun kv => kv.1 == key) then
    v.map (fun kv => if kv.1 == key then (kv.1, kv.2 ++ [value]) else kv)
  else v ++ [(key, [value])]

/-- Insertion of a key into a list sorted in increasing order. -/
def insertKey (k : String) : List String → List String
  | [] => [k]
  | x :: xs => if k < x then k :: x :: xs else x :: insertKey k xs

/-- Function `sort.Strings`. -/
def sortStrings (keys : List String) : List String :=
  keys.foldr insertKey []

/-- Method `Encode` of `url.Values`: `key=value` pairs, sorted by key, joined by `&`. -/
def url.Values.Encode (v : url.Values) : String :=
  let keys := sortStrings (v.map (fun kv => kv.1))
  let pairs := keys.flatMap (fun k =>
    ((v.lookup k).getD []).map (fun value => url.QueryEscape k ++ "=" ++ url.QueryEscape value))
  "&".intercalate pairs

/-! ## engage.go -/

/-- Constant `userAgent`. -/
def userAgent : String := "Heroshe - GoEngage Lib"

/-- Constant `apiUrl`. -/
def apiUrl : String := "https://api.engage.so/v1"

/-- Constant `time.Second`, in nanoseconds. -/
def second : Nat := 1000000000

/-- Struct `Client` (the two service facades point back at the client itself). -/
structure Client where
  httpClient : HTTPClient
  BaseUrl : String
  UserAgent : String
  credentials : Credentials

/-- What `New` hands back: the client, the error, and the caller's config afterwards. -/
structure NewResult where
  client : Option Client
  err : Option GoError
  config : Config

/-- Function `validateConfig`; `config.Credentials` is dereferenced unchecked. -/
def validateConfig (config : Config) : Run (Option GoError) :=
  match config.Credentials with
  | none => .panic nilDeref
  | some credentials =>
    if credentials.publicKey == "" then
      .ret (some (.errorString "goengage: Public Key is required"))
    else if credentials.privateKey == "" then
      .ret (some (.errorString "goengage: Private Key is required"))
    else .ret none

/-- Function `New`. -/
def New (lib : Lib) (config : Config) : Run NewResult :=
  match validateConfig config with
  | .panic msg => .panic msg
  | .ret (some err) => .ret { client := none, err := some err, config := config }
  | .ret none =>
    let config : Config :=
      if config.HTTPClient.isNone then
        { config with HTTPClient := some { Do := lib.defaultDo, Timeout := 10 * second } }
      else config
    match config.Credentials, config.HTTPClient with
    | some credentials, some httpClient =>
      .ret { client := some { BaseUrl := apiUrl, credentials := credentials,
                              httpClient := httpClient, UserAgent := userAgent },
             err := none, config := config }
    | _, _ => .panic nilDeref

/-- Method `newRequest`: the request or the error, and the calls made. -/
def Client.newRequest (lib : Lib) (c : Client) (method endpoint : String)
    (body : Option String) : Except GoError Request × List Call :=
  let url := c.BaseUrl ++ "/" ++ endpoint
  let url := if strings.HasPrefix endpoint "/" then c.BaseUrl ++ endpoint else url
  match lib.NewRequest method url body with
  | .error err => (.error err, [.httpNewRequest method url body])
  | .ok req =>
    let req := req.SetBasicAuth c.credentials.publicKey c.credentials.privateKey
    let req := req.setHeader "User-Agent" c.UserAgent
    let req := req.setHeader "Content-Type" "application/json"
    let req := req.setHeader "Accept" "application/json"
    (.ok req, [.httpNewRequest method url body])

/-- State after `makeRequest`: the target, the returned error, and the calls made. -/
structure Done (α : Type) where
  target : α
  err : Option GoError
  calls : List Call

/-- Slice `successCodes` of `makeRequest`. -/
def successCodes : List Int := [200, 201, 202, 203, 204, 205, 206]

/-- Method `makeRequest`, with `unmarshal` standing for `json.Unmarshal` at the target. -/
def Client.makeRequest {α : Type} (c : Client) (req : Request)
    (unmarshal : String → α → α × Option GoError) (target : α) : Done α :=
  match c.httpClient.Do req with
  | .error err => { target := target, err := some err, calls := [.httpDo req] }
  | .ok resp =>
    match resp.Body with
    | .error err => { target := target, err := some err, calls := [.httpDo req] }
    | .ok body =>
      if successCodes.any (fun code => code == resp.StatusCode) then
        { target := (unmarshal body target).1, err := (unmarshal body target).2,
          calls := [.httpDo req, .jsonUnmarshal body] }
      else
        { target := target,
          err := some (.api { Code := resp.StatusCode, Message := body }),
          calls := [.httpDo req] }

/-! ## users.go -/

/-- What an operation of type `(*T, error)` returns, and the calls it made. -/
structure Ret (α : Type) where
  result : Option α
  err : Option GoError
  calls : List Call

/-- What an operation of type `error` returns, and the calls it made. -/
structure RetErr where
  err : Option GoError
  calls : List Call

/-- Method `Users.Create`, on the struct that `input` points at. -/
def Users.Create (lib : Lib) (c : Client) (input : CreateUserInput) : Ret UserOutput :=
  if input.Id == "" then
    { result := none, err := some (.errorString "goengage: id is required"), calls := [] }
  else
    match lib.marshalCreateUserInput input with
    | .error err => { result := none, err := some err, calls := [.jsonMarshal] }
    | .ok payload =>
      match c.newRequest lib "POST" "/users" (some payload) with
      | (.error err, built) =>
        { result := none, err := some err, calls := .jsonMarshal :: built }
      | (.ok req, built) =>
        let done := c.makeRequest req lib.unmarshalUserOutput UserOutput.zero
        if done.err.isSome then
          { result := none, err := done.err, calls := .jsonMarshal :: built ++ done.calls }
        else
          { result := some done.target, err := done.err,
            calls := .jsonMarshal :: built ++ done.calls }

/-- Method `Users.Get`. -/
def Users.Get (lib : Lib) (c : Client) (uid : String) : Ret UserOutput :=
  if uid == "" then
    { result := none, err := some (.errorString "goengage: uid is required"), calls := [] }
  else
    match c.newRequest lib "GET" ("/users/" ++ uid) none with
    | (.error err, built) => { result := none, err := some err, calls := built }
    | (.ok req, built) =>
      let done := c.makeRequest req lib.unmarshalUserOutput UserOutput.zero
      if done.err.isSome then
        { result := none, err := done.err, calls := built ++ done.calls }
      else
        { result := some done.target, err := done.err, calls := built ++ done.calls }

/-- Query parameters that `Users.List` and `Lists.GetAllLists` build from their input. -/
def paginatorParams (input : PaginatorInput) : url.Values :=
  let params : url.Values := []
  let params :=
    match input.Limit with
    | some limit => params.Add "limit" (strconv.Itoa limit)
    | none => params
  let params :=
    match input.NextCursor with
    | some next => if input.PrevCursor.isNone then params.Add "next_cursor" next else params
    | none => params
  let params :=
    match input.PrevCursor with
    | some prev => if input.NextCursor.isNone then params.Add "prev_cursor" prev else params
    | none => params
  params

/-- Method `Users.List`, on the struct that `input` points at. -/
def Users.List (lib : Lib) (c : Client) (input : PaginatorInput) : Ret ListUserOutput :=
  if input.NextCursor.isSome && input.PrevCursor.isSome then
    { result := none,
      err := some (.errorString "goengage: Cannot use Next and Prev cursor at the same time"),
      calls := [] }
  else
    let params := paginatorParams input
    match c.newRequest lib "GET" ("/users?" ++ params.Encode) none with
    | (.error err, built) => { result := none, err := some err, calls := built }
    | (.ok req, built) =>
      let done := c.makeRequest req lib.unmarshalListUserOutput ListUserOutput.zero
      if done.err.isSome then
        { result := none, err := done.err, calls := built ++ done.calls }
      else
        { result := some done.target, err := done.err, calls := built ++ done.calls }

/-- Method `Users.UpdateAttributes`, on the struct that `input` points at. -/
def Users.UpdateAttributes (lib : Lib) (c : Client) (uid : String)
    (input : UpdateUserAttributesInput) : Ret UserOutput :=
  if uid == "" then
    { result := none, err := some (.errorString "goengage: uid is required"), calls := [] }
  else
    match lib.marshalUpdateUserAttributesInput input with
    | .error err => { result := none, err := some err, calls := [.jsonMarshal] }
    | .ok payload =>
      match c.newRequest lib "PUT" ("/users/" ++ uid) (some payload) with
      | (.error err, built) =>
        { result := none, err := some err, calls := .jsonMarshal :: built }
      | (.ok req, built) =>
        let done := c.makeRequest req lib.unmarshalUserOutput UserOutput.zero
        if done.err.isSome then
          { result := none, err := done.err, calls := .jsonMarshal :: built ++ done.calls }
        else
          { result := some done.target, err := done.err,
            calls := .jsonMarshal :: built ++ done.calls }

/-- Method `Users.AddEvent`, on the struct that `event` points at. -/
def Users.AddEvent (lib : Lib) (c : Client) (uid : String) (event : AddUserEvent) : RetErr :=
  if uid == "" then
    { err := some (.errorString "goengage: uid is required"), calls := [] }
  else
    match lib.marshalAddUserEvent event with
    | .error err => { err := some err, calls := [.jsonMarshal] }
    | .ok payload =>
      match c.newRequest lib "PUT" ("/users/" ++ uid ++ "/events") (some payload) with
      | (.error err, built) => { err := some err, calls := .jsonMarshal :: built }
      | (.ok req, built) =>
        let done := c.makeRequest req lib.unmarshalStringMap []
        { err := done.err, calls := .jsonMarshal :: built ++ done.calls }

/-! ## lists.go -/

/-- Method `Lists.CreateList`, on the struct that `input` points at. -/
def Lists.CreateList (lib : Lib) (c : Client) (input : CreateUpdateListInput) :
    Ret ListOutput :=
  if input.Title.isNone then
    { result := none, err := some (.errorString "goengage: title is required"), calls := [] }
  else
    match lib.marshalCreateUpdateListInput input with
    | .error err => { result := none, err := some err, calls := [.jsonMarshal] }
    | .ok payload =>
      match c.newRequest lib "POST" "/lists" (some payload) with
      | (.error err, built) =>
        { result := none, err := some err, calls := .jsonMarshal :: built }
      | (.ok req, built) =>
        let done := c.makeRequest req lib.unmarshalListOutput ListOutput.zero
        if done.err.isSome then
          { result := none, err := done.err, calls := .jsonMarshal :: built ++ done.calls }
        else
          { result := some done.target, err := done.err,
            calls := .jsonMarshal :: built ++ done.calls }

/-- Method `Lists.GetAllLists`, on the struct that `input` points at. -/
def Lists.GetAllLists (lib : Lib) (c : Client) (input : PaginatorInput) :
    Ret AllListOutput :=
  if input.NextCursor.isSome && input.PrevCursor.isSome then
    { result := none,
      err := some (.errorString "goengage: Cannot use Next and Prev cursor at the same time"),
      calls := [] }
  else
    let params := paginatorParams input
    match c.newRequest lib "GET" ("/lists?" ++ params.Encode) none with
    | (.error err, built) => { result := none, err := some err, calls := built }
    | (.ok req, built) =>
      let done := c.makeRequest req lib.unmarshalAllListOutput AllListOutput.zero
      if done.err.isSome then
        { result := none, err := done.err, calls := built ++ done.calls }
      else
        { result := some done.target, err := done.err, calls := built ++ done.calls }

/-- Method `Lists.GetList`. -/
def Lists.GetList (lib : Lib) (c : Client) (id : String) : Ret ListOutput :=
  if id == "" then
    { result := none, err := some (.errorString "goengage: id is required"), calls := [] }
  else
    match c.newRequest lib "GET" ("/lists/" ++ id) none with
    | (.error err, built) => { result := none, err := some err, calls := built }
    | (.ok req, built) =>
      let done := c.makeRequest req lib.unmarshalListOutput ListOutput.zero
      if done.err.isSome then
        { result := none, err := done.err, calls := built ++ done.calls }
      else
        { result := some done.target, err := done.err, calls := built ++ done.calls }

/-- Method `Lists.UpdateList`, on the struct that `input` points at. -/
def Lists.UpdateList (lib : Lib) (c : Client) (id : String) (input : CreateUpdateListInput) :
    Ret ListOutput :=
  if id == "" then
    { result := none, err := some (.errorString "goengage: id is required"), calls := [] }
  else
    match lib.marshalCreateUpdateListInput input with
    | .error err => { result := none, err := some err, calls := [.jsonMarshal] }
    | .ok payload =>
      match c.newRequest lib "PUT" ("/lists/" ++ id) (some payload) with
      | (.error err, built) =>
        { result := none, err := some err, calls := .jsonMarshal :: built }
      | (.ok req, built) =>
        let done := c.makeRequest req lib.unmarshalListOutput ListOutput.zero
        if done.err.isSome then
          { result := none, err := done.err, calls := .jsonMarshal :: built ++ done.calls }
        else
          { result := some done.target, err := done.err,
            calls := .jsonMarshal :: built ++ done.calls }

/-- Method `Lists.ArchiveList`. -/
def Lists.ArchiveList (lib : Lib) (c : Client) (id : String) : RetErr :=
  if id == "" then
    { err := some (.errorString "goengage: id is required"), calls := [] }
  else
    match c.newRequest lib "DELETE" ("/lists/" ++ id) none with
    | (.error err, built) => { err := some err, calls := built }
    | (.ok req, built) =>
      let done := c.makeRequest req lib.unmarshalStringMap []
      { err := done.err, calls := built ++ done.calls }

/-- Method `Lists.SubscribeList`, on the struct that `input` points at. -/
def Lists.SubscribeList (lib : Lib) (c : Client) (id : String) (input : SubscribeListInput) :
    Ret SubscribeListOutput :=
  if input.Email.isNone && input.Number.isNone then
    { result := none, err := some (.errorString "goengage: Email or Number is required"),
      calls := [] }
  else if id == "" then
    { result := none, err := some (.errorString "goengage: id is required"), calls := [] }
  else
    match lib.marshalSubscribeListInput input with
    | .error err => { result := none, err := some err, calls := [.jsonMarshal] }
    | .ok payload =>
      match c.newRequest lib "POST" ("/lists/" ++ id ++ "/subscribers") (some payload) with
      | (.error err, built) =>
        { result := none, err := some err, calls := .jsonMarshal :: built }
      | (.ok req, built) =>
        let done := c.makeRequest req lib.unmarshalSubscribeListOutput SubscribeListOutput.zero
        if done.err.isSome then
          { result := none, err := done.err, calls := .jsonMarshal :: built ++ done.calls }
        else
          { result := some done.target, err := done.err,
            calls := .jsonMarshal :: built ++ done.calls }

/-- Method `Lists.UnsubscribeList`; the second guard tests `id` again, as the source does. -/
def Lists.UnsubscribeList (lib : Lib) (c : Client) (id uid : String) : RetErr :=
  if id == "" then
    { err := some (.errorString "goengage: id is required"), calls := [] }
  else if id == "" then
    { err := some (.errorString "goengage: uid is required"), calls := [] }
  else
    match c.newRequest lib "DELETE" ("/lists/" ++ id ++ "/subscribers/" ++ uid) none with
    | (.error err, built) => { err := some err, calls := built }
    | (.ok req, built) =>
      let done := c.makeRequest req lib.unmarshalStringMap []
      { err := done.err, calls := built ++ done.calls }

/-! ## The services as they are called: `UserService` and `ListService`

The methods of users.go and lists.go are stated above on the struct that the input pointer
refers to. A caller holds the interfaces `UserService` and `ListService` and passes the
pointer itself. `Create`, `List`, `CreateList`, `GetAllLists` and `SubscribeList` read a
field of `input` before anything else, which panics when `input` is nil; `UpdateAttributes`,
`AddEvent` and `UpdateList` hand the pointer to `json.Marshal` without reading it, and
`json.Marshal` writes a nil pointer as `null`. -/

/-- Text that `json.Marshal` returns for a nil pointer. -/
def nullPayload : String := "null"

/-- Method `Create` of `UserService`: `input.Id` is read first. -/
def UserService.Create (lib : Lib) (c : Client) (input : Option CreateUserInput) :
    Run (Ret UserOutput) :=
  match input with
  | none => .panic nilDeref
  | some input => .ret (Users.Create lib c input)

/-- Method `Get` of `UserService`. -/
def UserService.Get (lib : Lib) (c : Client) (uid : String) : Run (Ret UserOutput) :=
  .ret (Users.Get lib c uid)

/-- Method `List` of `UserService`: `input.NextCursor` is read first. -/
def UserService.List (lib : Lib) (c : Client) (input : Option PaginatorInput) :
    Run (Ret ListUserOutput) :=
  match input with
  | none => .panic nilDeref
  | some input => .ret (Users.List lib c input)

/-- Method `UpdateAttributes` of `UserService`: a nil `input` is marshalled as `null`. -/
def UserService.UpdateAttributes (lib : Lib) (c : Client) (uid : String)
    (input : Option UpdateUserAttributesInput) : Run (Ret UserOutput) :=
  match input with
  | some input => .ret (Users.UpdateAttributes lib c uid input)
  | none =>
    .ret (
      if uid == "" then
        { result := none, err := some (.errorString "goengage: uid is required"), calls := [] }
      else
        match c.newRequest lib "PUT" ("/users/" ++ uid) (some nullPayload) with
        | (.error err, built) =>
          { result := none, err := some err, calls := .jsonMarshal :: built }
        | (.ok req, built) =>
          let done := c.makeRequest req lib.unmarshalUserOutput UserOutput.zero
          if done.err.isSome then
            { result := none, err := done.err, calls := .jsonMarshal :: built ++ done.calls }
          else
            { result := some done.target, err := done.err,
              calls := .jsonMarshal :: built ++ done.calls })

/-- Method `AddEvent` of `UserService`: a nil `event` is marshalled as `null`. -/
def UserService.AddEvent (lib : Lib) (c : Client) (uid : String)
    (event : Option AddUserEvent) : Run RetErr :=
  match event with
  | some event => .ret (Users.AddEvent lib c uid event)
  | none =>
    .ret (
      if uid == "" then
        { err := some (.errorString "goengage: uid is required"), calls := [] }
      else
        match c.newRequest lib "PUT" ("/users/" ++ uid ++ "/events") (some nullPayload) with
        | (.error err, built) => { err := some err, calls := .jsonMarshal :: built }
        | (.ok req, built) =>
          let done := c.makeRequest req lib.unmarshalStringMap []
          { err := done.err, calls := .jsonMarshal :: built ++ done.calls })

/-- Method `CreateList` of `ListService`: `input.Title` is read first. -/
def ListService.CreateList (lib : Lib) (c : Client) (input : Option CreateUpdateListInput) :
    Run (Ret ListOutput) :=
  match input with
  | none => .panic nilDeref
  | some input => .ret (Lists.CreateList lib c input)

/-- Method `GetAllLists` of `ListService`: `input.NextCursor` is read first. -/
def ListService.GetAllLists (lib : Lib) (c : Client) (input : Option PaginatorInput) :
    Run (Ret AllListOutput) :=
  match input with
  | none => .panic nilDeref
  | some input => .ret (Lists.GetAllLists lib c input)

/-- Method `GetList` of `ListService`. -/
def ListService.GetList (lib : Lib) (c : Client) (id : String) : Run (Ret ListOutput) :=
  .ret (Lists.GetList lib c id)

/-- Method `UpdateList` of `ListService`: a nil `input` is marshalled as `null`. -/
def ListService.UpdateList (lib : Lib) (c : Client) (id : String)
    (input : Option CreateUpdateListInput) : Run (Ret ListOutput) :=
  match input with
  | some input => .ret (Lists.UpdateList lib c id input)
  | none =>
    .ret (
      if id == "" then
        { result := none, err := some (.errorString "goengage: id is required"), calls := [] }
      else
        match c.newRequest lib "PUT" ("/lists/" ++ id) (some nullPayload) with
        | (.error err, built) =>
          { result := none, err := some err, calls := .jsonMarshal :: built }
        | (.ok req, built) =>
          let done := c.makeRequest req lib.unmarshalListOutput ListOutput.zero
          if done.err.isSome then
            { result := none, err := done.err, calls := .jsonMarshal :: built ++ done.calls }
          else
            { result := some done.target, err := done.err,
              calls := .jsonMarshal :: built ++ done.calls })

/-- Method `ArchiveList` of `ListService`. -/
def ListService.ArchiveList (lib : Lib) (c : Client) (id : String) : Run RetErr :=
  .ret (Lists.ArchiveList lib c id)

/-- Method `SubscribeList` of `ListService`: `input.Email` is read first. -/
def ListService.SubscribeList (lib : Lib) (c : Client) (id : String)
    (input : Option SubscribeListInput) : Run (Ret SubscribeListOutput) :=
  match input with
  | none => .panic nilDeref
  | some input => .ret (Lists.SubscribeList lib c id input)

/-- Method `UnsubscribeList` of `ListService`. -/
def ListService.UnsubscribeList (lib : Lib) (c : Client) (id uid : String) : Run RetErr :=
  .ret (Lists.UnsubscribeList lib c id uid)

/-! ## encoding/json on the input structs of inputs.go

Every field of the five structs that are sent as a body carries `omitempty`: an empty
string, a nil pointer, an empty slice, an empty map or a nil interface is left out of the
object, and the other fields are written in the order of declaration. -/

/-- Lower-case hexadecimal digit, as in `hex` of encoding/json. -/
def lowerhex (n : Nat) : Char :=
  "0123456789abcdef".data.getD n '0'

/-- Text of one character inside a JSON string written by `json.Marshal`: the quote and the
backslash take a backslash, newline, carriage return and tab their short form, the other
control characters and `<`, `>`, `&` the form `\u00XX`, U+2028 and U+2029 the form
`\u202X` (encoding/json as released with Go up to 1.21). -/
def jsonEscapeChar (c : Char) : List Char :=
  let n := c.toNat
  if n == 34 then [Char.ofNat 92, Char.ofNat 34]
  else if n == 92 then [Char.ofNat 92, Char.ofNat 92]
  else if n == 10 then [Char.ofNat 92, 'n']
  else if n == 13 then [Char.ofNat 92, 'r']
  else if n == 9 then [Char.ofNat 92, 't']
  else if n < 32 || n == 60 || n == 62 || n == 38 then
    [Char.ofNat 92, 'u', '0', '0', lowerhex (n / 16), lowerhex (n % 16)]
  else if n == 8232 then [Char.ofNat 92, 'u', '2', '0', '2', '8']
  else if n == 8233 then [Char.ofNat 92, 'u', '2', '0', '2', '9']
  else [c]

/-- Text of a Go string as a JSON string. -/
def jsonString (s : String) : String :=
  ⟨Char.ofNat 34 :: s.data.flatMap jsonEscapeChar ++ [Char.ofNat 34]⟩

/-- The encoders of the values whose text is not fixed by the structs of the package:
`time` is `Time.MarshalJSON`, `value` the encoding of an `interface{}`. -/
structure JSONEncoder where
  time : Time → Except GoError String
  value : Value → Except GoError String

/-- A member of a JSON object: the key and the text of the value. -/
abbrev Member := String × String

/-- Text of a JSON object with the given members. -/
def renderObject (members : List Member) : String :=
  "\x7b" ++ ",".intercalate (members.map (fun m => jsonString m.1 ++ ":" ++ m.2)) ++ "\x7d"

/-- Field of type `string` tagged `omitempty`. -/
def omitEmptyString (key : String) (s : String) : List Member :=
  if s == "" then [] else [(key, jsonString s)]

/-- Field of type `*string` tagged `omitempty`. -/
def omitNilString (key : String) (p : Option String) : List Member :=
  match p with
  | none => []
  | some s => [(key, jsonString s)]

/-- Field of type `*bool` tagged `omitempty`. -/
def omitNilBool (key : String) (p : Option Bool) : List Member :=
  match p with
  | none => []
  | some b => [(key, if b then "true" else "false")]

/-- Field of type `[]string` tagged `omitempty`. -/
def omitEmptyStrings (key : String) (xs : List String) : List Member :=
  if xs.isEmpty then [] else [(key, "[" ++ ",".intercalate (xs.map jsonString) ++ "]")]

/-- Field of type `*time.Time` tagged `omitempty`. -/
def omitNilTime (enc : JSONEncoder) (key : String) (p : Option Time) :
    Except GoError (List Member) :=
  match p with
  | none => .ok []
  | some t =>
    match enc.time t with
    | .error err => .error err
    | .ok text => .ok [(key, text)]

/-- Field of type `map[string]interface{}` tagged `omitempty`. -/
def omitEmptyMap (enc : JSONEncoder) (key : String) (m : List (String × Value)) :
    Except GoError (List Member) :=
  if m.isEmpty then .ok []
  else
    match enc.value (.object m) with
    | .error err => .error err
    | .ok text => .ok [(key, text)]

/-- Field of type `interface{}` tagged `omitempty`. -/
def omitNilValue (enc : JSONEncoder) (key : String) (v : Value) :
    Except GoError (List Member) :=
  match v with
  | .null => .ok []
  | v =>
    match enc.value v with
    | .error err => .error err
    | .ok text => .ok [(key, text)]

/-- Members that `json.Marshal` writes for a `CreateUserInput`, by its struct tags. -/
def membersCreateUserInput (enc : JSONEncoder) (input : CreateUserInput) :
    Except GoError (List Member) :=
  match omitNilTime enc "created_at" input.CreatedAt with
  | .error err => .error err
  | .ok createdAt =>
    match omitEmptyMap enc "meta" input.Meta with
    | .error err => .error err
    | .ok metadata =>
      .ok (omitEmptyString "id" input.Id ++ omitNilString "first_name" input.FirstName ++
        omitNilString "last_name" input.LastName ++ omitNilString "email" input.Email ++
        omitNilString "number" input.Number ++ omitEmptyStrings "lists" input.Lists ++
        omitNilString "device_token" input.DeviceToken ++
        omitNilString "device_platform" input.DevicePlatform ++ createdAt ++ metadata)

/-- Members that `json.Marshal` writes for an `UpdateUserAttributesInput`. -/
def membersUpdateUserAttributesInput (enc : JSONEncoder) (input : UpdateUserAttributesInput) :
    Except GoError (List Member) :=
  match omitNilTime enc "created_at" input.CreatedAt with
  | .error err => .error err
  | .ok createdAt =>
    match omitEmptyMap enc "meta" input.Meta with
    | .error err => .error err
    | .ok metadata =>
      .ok (omitNilString "first_name" input.FirstName ++
        omitNilString "last_name" input.LastName ++ omitNilString "email" input.Email ++
        omitNilString "number" input.Number ++ omitEmptyStrings "lists" input.Lists ++
        omitNilString "device_token" input.DeviceToken ++
        omitNilString "device_platform" input.DevicePlatform ++ createdAt ++ metadata)

/-- Members that `json.Marshal` writes for an `AddUserEvent`. -/
def membersAddUserEvent (enc : JSONEncoder) (event : AddUserEvent) :
    Except GoError (List Member) :=
  match omitNilValue enc "value" event.Value with
  | .error err => .error err
  | .ok value =>
    match omitEmptyMap enc "properties" event.Properties with
    | .error err => .error err
    | .ok properties =>
      match omitNilTime enc "timestamp" event.Timestamp with
      | .error err => .error err
      | .ok timestamp =>
        .ok (omitEmptyString "event" event.Event ++ value ++ properties ++ timestamp)

/-- Members that `json.Marshal` writes for a `CreateUpdateListInput`. -/
def membersCreateUpdateListInput (input : CreateUpdateListInput) : List Member :=
  omitNilString "title" input.Title ++ omitNilString "description" input.Description ++
    omitNilString "redirect_url" input.RedirectUrl ++
    omitNilBool "double_optin" input.DoubleOptIn

/-- Members that `json.Marshal` writes for a `SubscribeListInput`. -/
def membersSubscribeListInput (enc : JSONEncoder) (input : SubscribeListInput) :
    Except GoError (List Member) :=
  match omitNilTime enc "created_at" input.CreatedAt with
  | .error err => .error err
  | .ok createdAt =>
    match omitEmptyMap enc "meta" input.Meta with
    | .error err => .error err
    | .ok metadata =>
      .ok (omitNilString "first_name" input.FirstName ++
        omitNilString "last_name" input.LastName ++ omitNilString "email" input.Email ++
        omitNilString "number" input.Number ++ createdAt ++ metadata)

/-- Text that `json.Marshal` returns for members that were encoded, or its error. -/
def renderMembers (members : Except GoError (List Member)) : Except GoError String :=
  match members with
  | .error err => .error err
  | .ok ms => .ok (renderObject ms)

/-- Call `json.Marshal(input)` on a `*CreateUserInput`. -/
def encodeCreateUserInput (enc : JSONEncoder) (input : CreateUserInput) :
    Except GoError String :=
  renderMembers (membersCreateUserInput enc input)

/-- Call `json.Marshal(input)` on an `*UpdateUserAttributesInput`. -/
def encodeUpdateUserAttributesInput (enc : JSONEncoder) (input : UpdateUserAttributesInput) :
    Except GoError String :=
  renderMembers (membersUpdateUserAttributesInput enc input)

/-- Call `json.Marshal(event)` on an `*AddUserEvent`. -/
def encodeAddUserEvent (enc : JSONEncoder) (event : AddUserEvent) : Except GoError String :=
  renderMembers (membersAddUserEvent enc event)

/-- Call `json.Marshal(input)` on a `*CreateUpdateListInput`. -/
def encodeCreateUpdateListInput (input : CreateUpdateListInput) : Except GoError String :=
  .ok (renderObject (membersCreateUpdateListInput input))

/-- Call `json.Marshal(input)` on a `*SubscribeListInput`. -/
def encodeSubscribeListInput (enc : JSONEncoder) (input : SubscribeListInput) :
    Except GoError String :=
  renderMembers (membersSubscribeListInput enc input)

/-- The standard library `lib` serialises the five input structs as encoding/json does
with the encoders `enc`. -/
def Lib.marshalsWith (lib : Lib) (enc : JSONEncoder) : Prop :=
  lib.marshalCreateUserInput = encodeCreateUserInput enc ∧
    lib.marshalUpdateUserAttributesInput = encodeUpdateUserAttributesInput enc ∧
    lib.marshalAddUserEvent = encodeAddUserEvent enc ∧
    lib.marshalCreateUpdateListInput = encodeCreateUpdateListInput ∧
    lib.marshalSubscribeListInput = encodeSubscribeListInput enc

/-! ## engage_test.go: the fixtures and the fake server -/

/-- Instant used for `time.Now().UTC()` in the fixtures: 2021-01-01T00:00:00Z. -/
def fixtureTime : Time := ⟨1609459200000000000⟩

/-- Variable `fakeUser` of engage_test.go. -/
def fakeUser : UserOutput :=
  { Id := "5fc6477241fcec31a9548e98", Uid := "123456789", UidUpdatable := false,
    FirstName := "Heroshe", LastName := "Engineering", Number := "987456321",
    Email := "someone@heroshe.com",
    Devices := [⟨"QWERTYUIOP", "ANDROID"⟩, ⟨"ASDFGHJKL", "APPLE"⟩],
    Lists := [⟨"ALL_USERS", true⟩, ⟨"MOBILE_USERS", false⟩],
    Segments := [⟨"ACTIVE_USERS", true⟩, ⟨"CHURNED_USERS", true⟩],
    Meta := [("property_a", .string "value_a"), ("property_b", .string "value_b")],
    CreatedAt := fixtureTime }

/-- Variable `fakeList` of engage_test.go. -/
def fakeList : ListOutput :=
  { Id := "ASDEWSDEWQQASZXDSED", Title := "Waiting List", Description := "Waiting List",
    SubscriberCount := 10, BroadcastCount := 10, DoubleOptIn := true,
    RedirectUrl := "https://test.com/landing", CreatedAt := fixtureTime }

/-- Text of `json.Marshal(fakeUser)`. -/
def fakeUserJSON : String :=
  "\x7b\"id\":\"5fc6477241fcec31a9548e98\",\"uid\":\"123456789\",\"uid_updateable\":false,\"first_name\":\"Heroshe\",\"last_name\":\"Engineering\",\"number\":\"987456321\",\"email\":\"someone@heroshe.com\",\"devices\":[\x7b\"token\":\"QWERTYUIOP\",\"platform\":\"ANDROID\"\x7d,\x7b\"token\":\"ASDFGHJKL\",\"platform\":\"APPLE\"\x7d],\"lists\":[\x7b\"id\":\"ALL_USERS\",\"subscribed\":true\x7d,\x7b\"id\":\"MOBILE_USERS\",\"subscribed\":false\x7d],\"segments\":[\x7b\"id\":\"ACTIVE_USERS\",\"suppressed\":true\x7d,\x7b\"id\":\"CHURNED_USERS\",\"suppressed\":true\x7d],\"meta\":\x7b\"property_a\":\"value_a\",\"property_b\":\"value_b\"\x7d,\"created_at\":\"2021-01-01T00:00:00Z\"\x7d"

/-- Text of `json.Marshal(fakeList)`. -/
def fakeListJSON : String :=
  "\x7b\"id\":\"ASDEWSDEWQQASZXDSED\",\"title\":\"Waiting List\",\"description\":\"Waiting List\",\"subscriber_count\":10,\"broadcast_count\":10,\"double_optin\":true,\"redirect_url\":\"https://test.com/landing\",\"created_at\":\"2021-01-01T00:00:00Z\"\x7d"

/-- Text of `json.Marshal` of the three-user page the fake server serves. -/
def fakeUsersJSON : String :=
  "\x7b\"data\":[" ++ fakeUserJSON ++ "," ++ fakeUserJSON ++ "," ++ fakeUserJSON ++
    "],\"next_cursor\":\"\",\"prev_cursor\":\"\"\x7d"

/-- Text of `json.Marshal` of the three-list page the fake server serves. -/
def fakeListsJSON : String :=
  "\x7b\"data\":[" ++ fakeListJSON ++ "," ++ fakeListJSON ++ "," ++ fakeListJSON ++
    "],\"next_cursor\":\"\",\"prev_cursor\":\"\"\x7d"

/-- User the fake server answers a PUT with: `fakeUser` with a new number. -/
def updatedUser : UserOutput :=
  { fakeUser with Number := "1234567890" }

/-- Text of `json.Marshal(updatedUser)`. -/
def updatedUserJSON : String :=
  "\x7b\"id\":\"5fc6477241fcec31a9548e98\",\"uid\":\"123456789\",\"uid_updateable\":false,\"first_name\":\"Heroshe\",\"last_name\":\"Engineering\",\"number\":\"1234567890\",\"email\":\"someone@heroshe.com\",\"devices\":[\x7b\"token\":\"QWERTYUIOP\",\"platform\":\"ANDROID\"\x7d,\x7b\"token\":\"ASDFGHJKL\",\"platform\":\"APPLE\"\x7d],\"lists\":[\x7b\"id\":\"ALL_USERS\",\"subscribed\":true\x7d,\x7b\"id\":\"MOBILE_USERS\",\"subscribed\":false\x7d],\"segments\":[\x7b\"id\":\"ACTIVE_USERS\",\"suppressed\":true\x7d,\x7b\"id\":\"CHURNED_USERS\",\"suppressed\":true\x7d],\"meta\":\x7b\"property_a\":\"value_a\",\"property_b\":\"value_b\"\x7d,\"created_at\":\"2021-01-01T00:00:00Z\"\x7d"

/-- List the fake server answers a PUT with: `fakeList` with a new title. -/
def updatedList : ListOutput :=
  { fakeList with Title := "New List Name" }

/-- Text of `json.Marshal(updatedList)`. -/
def updatedListJSON : String :=
  "\x7b\"id\":\"ASDEWSDEWQQASZXDSED\",\"title\":\"New List Name\",\"description\":\"Waiting List\",\"subscriber_count\":10,\"broadcast_count\":10,\"double_optin\":true,\"redirect_url\":\"https://test.com/landing\",\"created_at\":\"2021-01-01T00:00:00Z\"\x7d"

/-- Address of the fake server (`fakeService.URL`). -/
def fakeServiceURL : String := "http://127.0.0.1:8080"

/-- Path of a URL served by the fake server: what follows the address, up to the query. -/
def requestPath (url : String) : String :=
  ⟨(url.data.drop fakeServiceURL.length).takeWhile (fun ch => ch != '?')⟩

/-- A response with the given status and body. -/
def respond (status : Int) (body : String) : Except GoError Response :=
  .ok { StatusCode := status, Body := .ok body }

/-- Handler of `fakeServer` in engage_test.go, as the answer to a request; a branch that
writes nothing answers 200 with an empty body. -/
def fakeServer (req : Request) : Except GoError Response :=
  let path := requestPath req.URL
  if path == "/users" then
    if req.Method == "GET" then respond 200 fakeUsersJSON
    else if req.Method == "POST" then respond 200 fakeUserJSON
    else respond 200 ""
  else if path == "/users/" ++ fakeUser.Uid then
    if req.Method == "GET" then respond 200 fakeUserJSON
    else if req.Method == "PUT" then respond 200 updatedUserJSON
    else respond 200 ""
  else if path == "/users/" ++ fakeUser.Uid ++ "/events" then
    respond 200 "\x7b\"status\":\"ok\"\x7d"
  else if path == "/lists" then
    if req.Method == "GET" then respond 200 fakeListsJSON
    else if req.Method == "POST" then respond 200 fakeListJSON
    else respond 200 ""
  else if path == "/lists/" ++ fakeList.Id then
    if req.Method == "GET" then respond 200 fakeListJSON
    else if req.Method == "PUT" then respond 200 updatedListJSON
    else if req.Method == "DELETE" then respond 200 "\x7b\"status\": \"ok\"\x7d"
    else respond 200 ""
  else if path == "/lists/" ++ fakeList.Id ++ "/subscribers/" ++ fakeUser.Uid then
    respond 200 "\x7b\"status\": \"ok\"\x7d"
  else respond 500 ""

/-- Insertion of a member into members sorted by key. -/
def insertMember (m : Member) : List Member → List Member
  | [] => [m]
  | x :: xs => if m.1 < x.1 then m :: x :: xs else x :: insertMember m xs

mutual
/-- Text that `json.Marshal` writes for an `interface{}` holding JSON data; the members of
an object are sorted by key, as those of a Go map are. -/
def renderValue : Value → String
  | .null => "null"
  | .bool b => if b then "true" else "false"
  | .number literal => literal
  | .string s => jsonString s
  | .array items => "[" ++ ",".intercalate (renderValues items) ++ "]"
  | .object fields => renderObject ((renderFields fields).foldr insertMember [])
/-- Texts of the items of an array. -/
def renderValues : List Value → List String
  | [] => []
  | v :: vs => renderValue v :: renderValues vs
/-- Members of an object, in the order given. -/
def renderFields : List (String × Value) → List Member
  | [] => []
  | (k, v) :: rest => (k, renderValue v) :: renderFields rest
end

/-- Year, month and day, in the proleptic Gregorian calendar, of a count of days since
1970-01-01. -/
def civilFromDays (days : Int) : Int × Int × Int :=
  let z := days + 719468
  let era := Int.fdiv z 146097
  let doe := z - era * 146097
  let yoe := (doe - doe / 1460 + doe / 36524 - doe / 146096) / 365
  let doy := doe - (365 * yoe + yoe / 4 - yoe / 100)
  let mp := (5 * doy + 2) / 153
  let d := doy - (153 * mp + 2) / 5 + 1
  let m := if mp < 10 then mp + 3 else mp - 9
  (if m ≤ 2 then yoe + era * 400 + 1 else yoe + era * 400, m, d)

/-- Decimal text of a number, padded with zeros on the left to a width. -/
def padded (width : Nat) (n : Int) : String :=
  let digits := toString n.toNat
  ⟨List.replicate (width - digits.length) '0'⟩ ++ digits

/-- Digits without their trailing zeros. -/
def trimZeros (digits : List Char) : List Char :=
  (digits.reverse.dropWhile (fun ch => ch == '0')).reverse

/-- Year of an instant, in UTC. -/
def Time.year (t : Time) : Int :=
  (civilFromDays (Int.fdiv (Int.fdiv t.unixNano 1000000000) 86400)).1

/-- Text of an instant in the layout `time.RFC3339Nano`, in UTC. -/
def formatUTC (t : Time) : String :=
  let secs := Int.fdiv t.unixNano 1000000000
  let nanos := t.unixNano - secs * 1000000000
  let days := Int.fdiv secs 86400
  let rest := secs - days * 86400
  let (y, m, d) := civilFromDays days
  let fraction := if nanos == 0 then "" else "." ++ ⟨trimZeros (padded 9 nanos).data⟩
  padded 4 y ++ "-" ++ padded 2 m ++ "-" ++ padded 2 d ++ "T" ++ padded 2 (rest / 3600) ++
    ":" ++ padded 2 (rest % 3600 / 60) ++ ":" ++ padded 2 (rest % 60) ++ fraction ++ "Z"

/-- Error of `json.Marshal` on an instant whose year `Time.MarshalJSON` refuses. -/
def yearOutOfRange : GoError :=
  .lib "encoding/json"
    "json: error calling MarshalJSON for type time.Time: Time.MarshalJSON: year outside of range [0,9999]"

/-- Method `MarshalJSON` of `time.Time` on a UTC instant: an error for a year outside
0..9999, the quoted RFC 3339 text otherwise. -/
def marshalTimeUTC (t : Time) : Except GoError String :=
  if t.year < 0 || 10000 ≤ t.year then .error yearOutOfRange
  else .ok (jsonString (formatUTC t))

/-- Encoders for the fixtures: an instant is written as `Time.MarshalJSON` writes it in UTC,
and an `interface{}` as the JSON data it holds. -/
def fixtureEncoder : JSONEncoder where
  time := marshalTimeUTC
  value := fun v => .ok (renderValue v)


/-- Error of `json.Unmarshal` on a body that the fixture codec does not know. -/
def syntaxError : GoError := .lib "encoding/json" "unexpected end of JSON input"

/-- A standard library for the fixtures: every request builds, there is no network behind
the default transport, `json.Marshal` writes the input structs by their struct tags with the
encoders of the fixtures, and `json.Unmarshal` knows the bodies the fake server sends. -/
def fakeLib : Lib where
  newRequestErr := fun _ _ => none
  defaultDo := fun _ => .error (.lib "net/http" "dial tcp: connection refused")
  marshalCreateUserInput := encodeCreateUserInput fixtureEncoder
  marshalUpdateUserAttributesInput := encodeUpdateUserAttributesInput fixtureEncoder
  marshalAddUserEvent := encodeAddUserEvent fixtureEncoder
  marshalCreateUpdateListInput := encodeCreateUpdateListInput
  marshalSubscribeListInput := encodeSubscribeListInput fixtureEncoder
  unmarshalUserOutput := fun body target =>
    if body == fakeUserJSON then (fakeUser, none)
    else if body == updatedUserJSON then (updatedUser, none)
    else (target, some syntaxError)
  unmarshalListUserOutput := fun body target =>
    if body == fakeUsersJSON then
      ({ Data := [some fakeUser, some fakeUser, some fakeUser], NextCursor := "",
         PrevCursor := "" }, none)
    else (target, some syntaxError)
  unmarshalListOutput := fun body target =>
    if body == fakeListJSON then (fakeList, none)
    else if body == updatedListJSON then (updatedList, none)
    else (target, some syntaxError)
  unmarshalAllListOutput := fun body target =>
    if body == fakeListsJSON then
      ({ Data := [some fakeList, some fakeList, some fakeList], NextCursor := "",
         PrevCursor := "" }, none)
    else (target, some syntaxError)
  unmarshalSubscribeListOutput := fun body target =>
    if body == "\x7b\"uid\":\"123456789\"\x7d" then (⟨"123456789"⟩, none)
    else (target, some syntaxError)
  unmarshalStringMap := fun body target =>
    if body == "\x7b\"status\":\"ok\"\x7d" || body == "\x7b\"status\": \"ok\"\x7d" then
      ([("status", "ok")], none)
    else (target, some syntaxError)

/-- Variable `client` of engage_test.go: built by `New`, then pointed at the fake server. -/
def fakeClient : Client :=
  { httpClient := { Do := fakeServer, Timeout := 10 * second },
    BaseUrl := fakeServiceURL, UserAgent := userAgent,
    credentials := NewStaticCredentials "my_public_key" "my_private_key" }

/-- The standard library `lib` with `json.Marshal` of the input structs replaced by the
encoding with `enc`. -/
def Lib.withEncoder (lib : Lib) (enc : JSONEncoder) : Lib :=
  { lib with
    marshalCreateUserInput := encodeCreateUserInput enc
    marshalUpdateUserAttributesInput := encodeUpdateUserAttributesInput enc
    marshalAddUserEvent := encodeAddUserEvent enc
    marshalCreateUpdateListInput := encodeCreateUpdateListInput
    marshalSubscribeListInput := encodeSubscribeListInput enc }

/-- Input of `TestUsers_Create`: the id `1234567` and every other field nil. -/
def createUserFixture : CreateUserInput :=
  { Id := "1234567", FirstName := none, LastName := none, Email := none, Number := none,
    Lists := [], DeviceToken := none, DevicePlatform := none, CreatedAt := none, Meta := [] }

/-- First instant of the year 10000, in UTC. -/
def yearTenThousand : Time := ⟨253402300800000000000⟩

/-- A `CreateUserInput` with the id `1234567` whose `CreatedAt` lies in the year 10000. -/
def unencodableUser : CreateUserInput :=
  { createUserFixture with CreatedAt := some yearTenThousand }

/-! ## Vocabulary of the statements -/

/-- URL that `newRequest` passes to `http.NewRequest` for an endpoint. -/
def Client.requestURL (c : Client) (endpoint : String) : String :=
  if strings.HasPrefix endpoint "/" then c.BaseUrl ++ endpoint else c.BaseUrl ++ "/" ++ endpoint

/-- Request that `newRequest` returns when `http.NewRequest` accepts the method and URL. -/
def Client.prepared (c : Client) (method endpoint : String) (body : Option String) : Request :=
  { Method := method, URL := c.requestURL endpoint, Body := body,
    BasicAuth := some (c.credentials.publicKey, c.credentials.privateKey),
    Header := [("User-Agent", c.UserAgent), ("Content-Type", "application/json"),
               ("Accept", "application/json")] }

/-- An endpoint without its leading `/`, when it has one. -/
def trimSlash (endpoint : String) : String :=
  match endpoint.data with
  | '/' :: rest => ⟨rest⟩
  | _ => endpoint

/-- The steps every operation ends with: `newRequest`, `makeRequest` into a fresh output,
and the choice of what to return; `before` holds the calls made so far. -/
def Client.roundTrip {α : Type} (lib : Lib) (c : Client) (before : List Call)
    (method endpoint : String) (body : Option String)
    (unmarshal : String → α → α × Option GoError) (zero : α) : Ret α :=
  match c.newRequest lib method endpoint body with
  | (.error err, built) => { result := none, err := some err, calls := before ++ built }
  | (.ok req, built) =>
    let done := c.makeRequest req unmarshal zero
    if done.err.isSome then
      { result := none, err := done.err, calls := before ++ (built ++ done.calls) }
    else
      { result := some done.target, err := done.err, calls := before ++ (built ++ done.calls) }

/-- An operation of type `error` seen as one with a result that is never set. -/
def Ret.dropResult {α : Type} (r : Ret α) : RetErr :=
  { err := r.err, calls := r.calls }

/-- The operation stopped at a validation guard: nil result, an `errors.New` error, and no
call made (nothing marshalled, no request built, nothing sent). -/
def Ret.failsValidation {α : Type} (r : Ret α) : Prop :=
  r.result = none ∧ (∃ msg, r.err = some (.errorString msg)) ∧ r.calls = []

/-- The operation stopped at a validation guard: an `errors.New` error and no call made. -/
def RetErr.failsValidation (r : RetErr) : Prop :=
  (∃ msg, r.err = some (.errorString msg)) ∧ r.calls = []

/-- Some call of the trace builds a request with this method, URL and body. -/
def buildsRequest (calls : List Call) (method url : String) (body : Option String) : Prop :=
  Call.httpNewRequest method url body ∈ calls

/-- Some call of the trace sends a request with this method, URL and body. -/
def sendsRequest (calls : List Call) (method url : String) (body : Option String) : Prop :=
  ∃ req, Call.httpDo req ∈ calls ∧ req.Method = method ∧ req.URL = url ∧ req.Body = body

/-- No call of the trace builds or sends a request. -/
def noRequest (calls : List Call) : Prop :=
  (∀ method url body, Call.httpNewRequest method url body ∉ calls) ∧
    ∀ req, Call.httpDo req ∉ calls

/-- Contract of an operation that sent `req` when the transport answered it with a failure
status `code` and the body `text`: nil result, the `Error` of that code and text, and no
call of `json.Unmarshal`. -/
def Ret.apiFailure {α : Type} (r : Ret α) (req : Request) (code : Int) (text : String) :
    Prop :=
  Call.httpDo req ∈ r.calls →
    r.result = none ∧ r.err = some (.api { Code := code, Message := text }) ∧
      ∀ b, Call.jsonUnmarshal b ∉ r.calls

/-- Contract of an operation of type `error` that sent `req` when the transport answered it
with a failure status `code` and the body `text`. -/
def RetErr.apiFailure (r : RetErr) (req : Request) (code : Int) (text : String) : Prop :=
  Call.httpDo req ∈ r.calls →
    r.err = some (.api { Code := code, Message := text }) ∧
      ∀ b, Call.jsonUnmarshal b ∉ r.calls

/-- Contract of an operation that sent `req` when the transport answered it with a success
status and the body `text`, where `decoded` is what `json.Unmarshal` makes of `text` in a
fresh output: the body was handed to `json.Unmarshal`, the returned error is the decoding
error, and the result is the decoded output when that error is nil, nil otherwise. -/
def Ret.decodes {α : Type} (r : Ret α) (req : Request) (text : String)
    (decoded : α × Option GoError) : Prop :=
  Call.httpDo req ∈ r.calls →
    Call.jsonUnmarshal text ∈ r.calls ∧ r.err = decoded.2 ∧
      (decoded.2 = none → r.result = some decoded.1) ∧ (decoded.2 ≠ none → r.result = none)

/-- Contract of an operation of type `error` that sent `req` when the transport answered it
with a success status and the body `text`: the returned error is the decoding error. -/
def RetErr.decodes (r : RetErr) (req : Request) (text : String)
    (decoded : List (String × String) × Option GoError) : Prop :=
  Call.httpDo req ∈ r.calls → Call.jsonUnmarshal text ∈ r.calls ∧ r.err = decoded.2

/-- The requests that the calls of a trace ask for: method, URL and body of every call of
`http.NewRequest`, in order (`http.NewRequest` builds the request when it accepts them). -/
def builtRequests (calls : List Call) : List (String × String × Option String) :=
  calls.filterMap (fun call =>
    match call with
    | .httpNewRequest method url body => some (method, url, body)
    | _ => none)

/-- The query as the specification words it: `limit=<decimal value>` when `Limit` is set,
`next_cursor=<value>` when `NextCursor` is set, `prev_cursor=<value>` when `PrevCursor` is
set, nothing else, joined by `&`; a cursor is written in its query-escaped form. -/
def specQuery (input : PaginatorInput) : String :=
  "&".intercalate
    ((match input.Limit with
      | some limit => ["limit=" ++ toString limit]
      | none => []) ++
     (match input.NextCursor with
      | some next => ["next_cursor=" ++ url.QueryEscape next]
      | none => []) ++
     (match input.PrevCursor with
      | some prev => ["prev_cursor=" ++ url.QueryEscape prev]
      | none => []))

/-- The key of a field, when the field is set. -/
def keyIf (set : Bool) (key : String) : List String :=
  if set then [key] else []

/-- Whether an `interface{}` is nil. -/
def Value.isNull : Value → Bool
  | .null => true
  | _ => false

/-- Keys the specification expects in the body of a `CreateUserInput`: those of the fields
that are set, in the order of declaration. -/
def keysCreateUserInput (input : CreateUserInput) : List String :=
  keyIf (input.Id != "") "id" ++ keyIf input.FirstName.isSome "first_name" ++
    keyIf input.LastName.isSome "last_name" ++ keyIf input.Email.isSome "email" ++
    keyIf input.Number.isSome "number" ++ keyIf (!input.Lists.isEmpty) "lists" ++
    keyIf input.DeviceToken.isSome "device_token" ++
    keyIf input.DevicePlatform.isSome "device_platform" ++
    keyIf input.CreatedAt.isSome "created_at" ++ keyIf (!input.Meta.isEmpty) "meta"

/-- Keys the specification expects in the body of an `UpdateUserAttributesInput`. -/
def keysUpdateUserAttributesInput (input : UpdateUserAttributesInput) : List String :=
  keyIf input.FirstName.isSome "first_name" ++
    keyIf input.LastName.isSome "last_name" ++ keyIf input.Email.isSome "email" ++
    keyIf input.Number.isSome "number" ++ keyIf (!input.Lists.isEmpty) "lists" ++
    keyIf input.DeviceToken.isSome "device_token" ++
    keyIf input.DevicePlatform.isSome "device_platform" ++
    keyIf input.CreatedAt.isSome "created_at" ++ keyIf (!input.Meta.isEmpty) "meta"

/-- Keys the specification expects in the body of an `AddUserEvent`. -/
def keysAddUserEvent (event : AddUserEvent) : List String :=
  keyIf (event.Event != "") "event" ++ keyIf (!event.Value.isNull) "value" ++
    keyIf (!event.Properties.isEmpty) "properties" ++ keyIf event.Timestamp.isSome "timestamp"

/-- Keys the specification expects in the body of a `CreateUpdateListInput`. -/
def keysCreateUpdateListInput (input : CreateUpdateListInput) : List String :=
  keyIf input.Title.isSome "title" ++ keyIf input.Description.isSome "description" ++
    keyIf input.RedirectUrl.isSome "redirect_url" ++ keyIf input.DoubleOptIn.isSome "double_optin"

/-- Keys the specification expects in the body of a `SubscribeListInput`. -/
def keysSubscribeListInput (input : SubscribeListInput) : List String :=
  keyIf input.FirstName.isSome "first_name" ++
    keyIf input.LastName.isSome "last_name" ++ keyIf input.Email.isSome "email" ++
    keyIf input.Number.isSome "number" ++ keyIf input.CreatedAt.isSome "created_at" ++
    keyIf (!input.Meta.isEmpty) "meta"

/-- Exactly one of the returned result and the returned error is non-nil. -/
def Ret.exactlyOne {α : Type} (r : Ret α) : Prop :=
  (r.result = none ∧ r.err ≠ none) ∨ (r.result ≠ none ∧ r.err = none)

/-- The requests that the calls of a trace send: the argument of every call of `Do`, in
order. -/
def sentRequests (calls : List Call) : List Request :=
  calls.filterMap (fun call =>
    match call with
    | .httpDo req => some req
    | _ => none)

/-- What the endpoint table asks of a trace and a returned error, for a method, a URL and a
body: `http.NewRequest` is called exactly once, with that method, URL and body; when it
accepts them, exactly one request is sent and it carries them; when it rejects them, no
request is built, nothing is sent, and its error is returned. -/
def followsTable (lib : Lib) (calls : List Call) (err : Option GoError)
    (method url : String) (body : Option String) : Prop :=
  builtRequests calls = [(method, url, body)] ∧
    (lib.newRequestErr method url = none →
      ∃ req, sentRequests calls = [req] ∧ req.Method = method ∧ req.URL = url ∧
        req.Body = body) ∧
    (∀ e, lib.newRequestErr method url = some e → sentRequests calls = [] ∧ err = some e)

/-- The operation follows the endpoint table for a method, a URL and a body. -/
def Ret.followsTable {α : Type} (r : Ret α) (lib : Lib) (method url : String)
    (body : Option String) : Prop :=
  GoEngage.followsTable lib r.calls r.err method url body

/-- The operation of type `error` follows the endpoint table for a method, a URL and a
body. -/
def RetErr.followsTable (r : RetErr) (lib : Lib) (method url : String)
    (body : Option String) : Prop :=
  GoEngage.followsTable lib r.calls r.err method url body

/-- The operation stopped when `json.Marshal` failed: it returns that error and a nil
result, and has called neither `http.NewRequest` nor `Do`. -/
def Ret.stopsAtMarshal {α : Type} (r : Ret α) (e : GoError) : Prop :=
  r.calls = [.jsonMarshal] ∧ r.err = some e ∧ r.result = none

/-- The operation of type `error` stopped when `json.Marshal` failed. -/
def RetErr.stopsAtMarshal (r : RetErr) (e : GoError) : Prop :=
  r.calls = [.jsonMarshal] ∧ r.err = some e

/-- The call returns, and exactly one of the returned result and the returned error is
non-nil. -/
def Run.exactlyOne {α : Type} (x : Run (Ret α)) : Prop :=
  match x with
  | .ret r => r.exactlyOne
  | .panic _ => False

/-! ## Lemmas on the pipeline -/

theorem hasPrefix_slash_append (e : String) : strings.HasPrefix ("/" ++ e) "/" = true := by
  simp [strings.HasPrefix, String.data_append]

theorem requestURL_eq (c : Client) (endpoint : String) :
    c.requestURL endpoint = c.BaseUrl ++ "/" ++ trimSlash endpoint := by
  unfold Client.requestURL trimSlash strings.HasPrefix
  rcases endpoint with ⟨cs⟩
  rcases cs with _ | ⟨ch, rest⟩
  · simp
  · by_cases h : ch = '/'
    · subst h
      simp [String.ext_iff, String.data_append]
    · have h' : ¬ ('/' = ch) := fun e => h e.symm
      simp [h']
      split
      · rename_i heq
        simp at heq
        exact absurd heq.1 h
      · rfl

theorem newRequest_eq (lib : Lib) (c : Client) (method endpoint : String)
    (body : Option String) :
    c.newRequest lib method endpoint body =
      match lib.newRequestErr method (c.requestURL endpoint) with
      | some err => (.error err, [Call.httpNewRequest method (c.requestURL endpoint) body])
      | none =>
        (.ok (c.prepared method endpoint body),
         [Call.httpNewRequest method (c.requestURL endpoint) body]) := by
  unfold Client.prepared Client.newRequest Client.requestURL Lib.NewRequest
  by_cases hp : strings.HasPrefix endpoint "/" = true
  · simp only [hp, if_true]
    cases lib.newRequestErr method (c.BaseUrl ++ endpoint) <;>
      simp [Request.setHeader, Request.SetBasicAuth]
  · simp only [hp]
    generalize lib.newRequestErr method _ = answer
    cases answer <;> simp [Request.setHeader, Request.SetBasicAuth]

theorem trimSlash_slash_append (e : String) : trimSlash ("/" ++ e) = e := by
  unfold trimSlash
  have h : ("/" ++ e).data = '/' :: e.data := by simp [String.data_append]
  rw [h]
  rfl

theorem requestURL_slash_append (c : Client) (e : String) :
    c.requestURL ("/" ++ e) = c.BaseUrl ++ "/" ++ e := by
  rw [requestURL_eq, trimSlash_slash_append]

theorem requestURL_plain (c : Client) (e : String) (h : strings.HasPrefix e "/" = false) :
    c.requestURL e = c.BaseUrl ++ "/" ++ e := by
  unfold Client.requestURL
  simp [h]

theorem newRequest_calls (lib : Lib) (c : Client) (method endpoint : String)
    (body : Option String) :
    (c.newRequest lib method endpoint body).2 =
      [Call.httpNewRequest method (c.requestURL endpoint) body] := by
  rw [newRequest_eq]
  cases lib.newRequestErr method (c.requestURL endpoint) <;> rfl

theorem newRequest_error (lib : Lib) (c : Client) (method endpoint : String)
    (body : Option String) (err : GoError)
    (h : lib.newRequestErr method (c.requestURL endpoint) = some err) :
    (c.newRequest lib method endpoint body).1 = .error err := by
  rw [newRequest_eq, h]

theorem newRequest_ok (lib : Lib) (c : Client) (method endpoint : String)
    (body : Option String) (h : lib.newRequestErr method (c.requestURL endpoint) = none) :
    ∃ req, (c.newRequest lib method endpoint body).1 = .ok req ∧ req.Method = method ∧
      req.URL = c.requestURL endpoint ∧ req.Body = body := by
  rw [newRequest_eq, h]
  exact ⟨_, rfl, rfl, rfl, rfl⟩

theorem successCodes_any (status : Int) :
    successCodes.any (fun code => code == status) = true ↔
      status ∈ ([200, 201, 202, 203, 204, 205, 206] : List Int) := by
  simp only [successCodes, List.any_cons, List.any_nil, Bool.or_false, Bool.or_eq_true,
    beq_iff_eq, List.mem_cons, List.mem_singleton, List.not_mem_nil, or_false]
  omega

theorem makeRequest_failure_status {α : Type} (c : Client) (req : Request)
    (unmarshal : String → α → α × Option GoError) (target : α) (resp : Response)
    (body : String) (hdo : c.httpClient.Do req = .ok resp) (hbody : resp.Body = .ok body)
    (hstatus : resp.StatusCode ∉ ([200, 201, 202, 203, 204, 205, 206] : List Int)) :
    c.makeRequest req unmarshal target =
      { target := target, err := some (.api { Code := resp.StatusCode, Message := body }),
        calls := [.httpDo req] } := by
  have h : ¬ (successCodes.any (fun code => code == resp.StatusCode) = true) :=
    fun h => hstatus ((successCodes_any _).1 h)
  unfold Client.makeRequest
  simp only [hdo, hbody, h, if_false]
  rfl

theorem makeRequest_success_status {α : Type} (c : Client) (req : Request)
    (unmarshal : String → α → α × Option GoError) (target : α) (resp : Response)
    (body : String) (hdo : c.httpClient.Do req = .ok resp) (hbody : resp.Body = .ok body)
    (hstatus : resp.StatusCode ∈ ([200, 201, 202, 203, 204, 205, 206] : List Int)) :
    c.makeRequest req unmarshal target =
      { target := (unmarshal body target).1, err := (unmarshal body target).2,
        calls := [.httpDo req, .jsonUnmarshal body] } := by
  have h : successCodes.any (fun code => code == resp.StatusCode) = true :=
    (successCodes_any _).2 hstatus
  unfold Client.makeRequest
  simp only [hdo, hbody, h, if_true]

theorem makeRequest_calls {α : Type} (c : Client) (req : Request)
    (unmarshal : String → α → α × Option GoError) (target : α) :
    ∃ rest, (c.makeRequest req unmarshal target).calls = .httpDo req :: rest ∧
      ∀ r, Call.httpDo r ∉ rest := by
  unfold Client.makeRequest
  split
  · exact ⟨[], rfl, by simp⟩
  · split
    · exact ⟨[], rfl, by simp⟩
    · split
      · exact ⟨_, rfl, by simp⟩
      · exact ⟨[], rfl, by simp⟩

theorem roundTrip_error {α : Type} (lib : Lib) (c : Client) (before : List Call)
    (method endpoint : String) (body : Option String)
    (unmarshal : String → α → α × Option GoError) (zero : α) (err : GoError)
    (h : lib.newRequestErr method (c.requestURL endpoint) = some err) :
    c.roundTrip lib before method endpoint body unmarshal zero =
      { result := none, err := some err,
        calls := before ++ [.httpNewRequest method (c.requestURL endpoint) body] } := by
  unfold Client.roundTrip
  rw [newRequest_eq, h]

theorem roundTrip_ok {α : Type} (lib : Lib) (c : Client) (before : List Call)
    (method endpoint : String) (body : Option String)
    (unmarshal : String → α → α × Option GoError) (zero : α)
    (h : lib.newRequestErr method (c.requestURL endpoint) = none) :
    c.roundTrip lib before method endpoint body unmarshal zero =
      if (c.makeRequest (c.prepared method endpoint body) unmarshal zero).err.isSome then
        { result := none,
          err := (c.makeRequest (c.prepared method endpoint body) unmarshal zero).err,
          calls := before ++ (.httpNewRequest method (c.requestURL endpoint) body ::
            (c.makeRequest (c.prepared method endpoint body) unmarshal zero).calls) }
      else
        { result := some (c.makeRequest (c.prepared method endpoint body) unmarshal zero).target,
          err := (c.makeRequest (c.prepared method endpoint body) unmarshal zero).err,
          calls := before ++ (.httpNewRequest method (c.requestURL endpoint) body ::
            (c.makeRequest (c.prepared method endpoint body) unmarshal zero).calls) } := by
  unfold Client.roundTrip
  rw [newRequest_eq, h]
  rfl

theorem roundTrip_calls {α : Type} (lib : Lib) (c : Client) (before : List Call)
    (method endpoint : String) (body : Option String)
    (unmarshal : String → α → α × Option GoError) (zero : α) :
    ∃ rest, (c.roundTrip lib before method endpoint body unmarshal zero).calls =
      before ++ .httpNewRequest method (c.requestURL endpoint) body :: rest ∧
      (lib.newRequestErr method (c.requestURL endpoint) = none →
        rest = (c.makeRequest (c.prepared method endpoint body) unmarshal zero).calls) ∧
      (lib.newRequestErr method (c.requestURL endpoint) ≠ none → rest = []) := by
  cases h : lib.newRequestErr method (c.requestURL endpoint) with
  | some err =>
    rw [roundTrip_error _ _ _ _ _ _ _ _ _ h]
    exact ⟨[], rfl, by simp, by simp⟩
  | none =>
    rw [roundTrip_ok _ _ _ _ _ _ _ _ h]
    split <;> exact ⟨_, rfl, by simp, by simp⟩

/-! ## Each operation as its guards followed by the common steps -/

theorem Users.Create_eq (lib : Lib) (c : Client) (input : CreateUserInput) :
    Users.Create lib c input =
      if input.Id == "" then
        { result := none, err := some (.errorString "goengage: id is required"), calls := [] }
      else
        match lib.marshalCreateUserInput input with
        | .error err => { result := none, err := some err, calls := [.jsonMarshal] }
        | .ok payload =>
          c.roundTrip lib [.jsonMarshal] "POST" "/users" (some payload)
            lib.unmarshalUserOutput UserOutput.zero := by
  rfl

theorem Users.Get_eq (lib : Lib) (c : Client) (uid : String) :
    Users.Get lib c uid =
      if uid == "" then
        { result := none, err := some (.errorString "goengage: uid is required"), calls := [] }
      else
        c.roundTrip lib [] "GET" ("/users/" ++ uid) none lib.unmarshalUserOutput
          UserOutput.zero := by
  rfl

theorem Users.List_eq (lib : Lib) (c : Client) (input : PaginatorInput) :
    Users.List lib c input =
      if input.NextCursor.isSome && input.PrevCursor.isSome then
        { result := none,
          err := some
            (.errorString "goengage: Cannot use Next and Prev cursor at the same time"),
          calls := [] }
      else
        c.roundTrip lib [] "GET" ("/users?" ++ (paginatorParams input).Encode) none
          lib.unmarshalListUserOutput ListUserOutput.zero := by
  rfl

theorem Users.UpdateAttributes_eq (lib : Lib) (c : Client) (uid : String)
    (input : UpdateUserAttributesInput) :
    Users.UpdateAttributes lib c uid input =
      if uid == "" then
        { result := none, err := some (.errorString "goengage: uid is required"), calls := [] }
      else
        match lib.marshalUpdateUserAttributesInput input with
        | .error err => { result := none, err := some err, calls := [.jsonMarshal] }
        | .ok payload =>
          c.roundTrip lib [.jsonMarshal] "PUT" ("/users/" ++ uid) (some payload)
            lib.unmarshalUserOutput UserOutput.zero := by
  rfl

theorem Users.AddEvent_eq (lib : Lib) (c : Client) (uid : String) (event : AddUserEvent) :
    Users.AddEvent lib c uid event =
      if uid == "" then
        { err := some (.errorString "goengage: uid is required"), calls := [] }
      else
        match lib.marshalAddUserEvent event with
        | .error err => { err := some err, calls := [.jsonMarshal] }
        | .ok payload =>
          (c.roundTrip lib [.jsonMarshal] "PUT" ("/users/" ++ uid ++ "/events") (some payload)
            lib.unmarshalStringMap []).dropResult := by
  unfold Users.AddEvent Client.roundTrip Ret.dropResult
  split
  · rfl
  · split
    · rfl
    · split
      · rfl
      · dsimp only
        split <;> rfl

theorem Lists.CreateList_eq (lib : Lib) (c : Client) (input : CreateUpdateListInput) :
    Lists.CreateList lib c input =
      if input.Title.isNone then
        { result := none, err := some (.errorString "goengage: title is required"),
          calls := [] }
      else
        match lib.marshalCreateUpdateListInput input with
        | .error err => { result := none, err := some err, calls := [.jsonMarshal] }
        | .ok payload =>
          c.roundTrip lib [.jsonMarshal] "POST" "/lists" (some payload)
            lib.unmarshalListOutput ListOutput.zero := by
  rfl

theorem Lists.GetAllLists_eq (lib : Lib) (c : Client) (input : PaginatorInput) :
    Lists.GetAllLists lib c input =
      if input.NextCursor.isSome && input.PrevCursor.isSome then
        { result := none,
          err := some
            (.errorString "goengage: Cannot use Next and Prev cursor at the same time"),
          calls := [] }
      else
        c.roundTrip lib [] "GET" ("/lists?" ++ (paginatorParams input).Encode) none
          lib.unmarshalAllListOutput AllListOutput.zero := by
  rfl

theorem Lists.GetList_eq (lib : Lib) (c : Client) (id : String) :
    Lists.GetList lib c id =
      if id == "" then
        { result := none, err := some (.errorString "goengage: id is required"), calls := [] }
      else
        c.roundTrip lib [] "GET" ("/lists/" ++ id) none lib.unmarshalListOutput
          ListOutput.zero := by
  rfl

theorem Lists.UpdateList_eq (lib : Lib) (c : Client) (id : String)
    (input : CreateUpdateListInput) :
    Lists.UpdateList lib c id input =
      if id == "" then
        { result := none, err := some (.errorString "goengage: id is required"), calls := [] }
      else
        match lib.marshalCreateUpdateListInput input with
        | .error err => { result := none, err := some err, calls := [.jsonMarshal] }
        | .ok payload =>
          c.roundTrip lib [.jsonMarshal] "PUT" ("/lists/" ++ id) (some payload)
            lib.unmarshalListOutput ListOutput.zero := by
  rfl

theorem Lists.ArchiveList_eq (lib : Lib) (c : Client) (id : String) :
    Lists.ArchiveList lib c id =
      if id == "" then
        { err := some (.errorString "goengage: id is required"), calls := [] }
      else
        (c.roundTrip lib [] "DELETE" ("/lists/" ++ id) none
          lib.unmarshalStringMap []).dropResult := by
  unfold Lists.ArchiveList Client.roundTrip Ret.dropResult
  split
  · rfl
  · split
    · rfl
    · dsimp only
      split <;> rfl

theorem Lists.SubscribeList_eq (lib : Lib) (c : Client) (id : String)
    (input : SubscribeListInput) :
    Lists.SubscribeList lib c id input =
      if input.Email.isNone && input.Number.isNone then
        { result := none, err := some (.errorString "goengage: Email or Number is required"),
          calls := [] }
      else if id == "" then
        { result := none, err := some (.errorString "goengage: id is required"), calls := [] }
      else
        match lib.marshalSubscribeListInput input with
        | .error err => { result := none, err := some err, calls := [.jsonMarshal] }
        | .ok payload =>
          c.roundTrip lib [.jsonMarshal] "POST" ("/lists/" ++ id ++ "/subscribers")
            (some payload) lib.unmarshalSubscribeListOutput SubscribeListOutput.zero := by
  rfl

theorem Lists.UnsubscribeList_eq (lib : Lib) (c : Client) (id uid : String) :
    Lists.UnsubscribeList lib c id uid =
      if id == "" then
        { err := some (.errorString "goengage: id is required"), calls := [] }
      else
        (c.roundTrip lib [] "DELETE" ("/lists/" ++ id ++ "/subscribers/" ++ uid) none
          lib.unmarshalStringMap []).dropResult := by
  unfold Lists.UnsubscribeList Client.roundTrip Ret.dropResult
  split
  · rfl
  · rename_i h
    simp only [h, if_false]
    split
    · rfl
    · split <;> rfl

/-! ## The common steps under a failure status and under a success status -/

theorem roundTrip_sent {α : Type} (lib : Lib) (c : Client) (before : List Call)
    (method endpoint : String) (body : Option String)
    (unmarshal : String → α → α × Option GoError) (zero : α) (req : Request)
    (hbefore : ∀ r, Call.httpDo r ∉ before)
    (hsent : Call.httpDo req ∈
      (c.roundTrip lib before method endpoint body unmarshal zero).calls) :
    lib.newRequestErr method (c.requestURL endpoint) = none ∧
      req = c.prepared method endpoint body := by
  cases h : lib.newRequestErr method (c.requestURL endpoint) with
  | some err =>
    rw [roundTrip_error _ _ _ _ _ _ _ _ _ h] at hsent
    simp at hsent
    exact absurd hsent (hbefore req)
  | none =>
    refine ⟨rfl, ?_⟩
    obtain ⟨rest, hcalls, hmk, -⟩ :=
      roundTrip_calls lib c before method endpoint body unmarshal zero
    obtain ⟨rest', hrest', hno⟩ :=
      makeRequest_calls c (c.prepared method endpoint body) unmarshal zero
    rw [hcalls, hmk h, hrest'] at hsent
    simp at hsent
    rcases hsent with hs | hs | hs
    · exact absurd hs (hbefore req)
    · exact hs
    · exact absurd hs (hno req)

theorem roundTrip_sends {α : Type} (lib : Lib) (c : Client) (before : List Call)
    (method endpoint : String) (body : Option String)
    (unmarshal : String → α → α × Option GoError) (zero : α)
    (h : lib.newRequestErr method (c.requestURL endpoint) = none) :
    Call.httpDo (c.prepared method endpoint body) ∈
      (c.roundTrip lib before method endpoint body unmarshal zero).calls := by
  obtain ⟨rest, hcalls, hmk, -⟩ :=
    roundTrip_calls lib c before method endpoint body unmarshal zero
  obtain ⟨rest', hrest', -⟩ :=
    makeRequest_calls c (c.prepared method endpoint body) unmarshal zero
  rw [hcalls, hmk h, hrest']
  simp

theorem roundTrip_apiFailure {α : Type} (lib : Lib) (c : Client) (before : List Call)
    (method endpoint : String) (body : Option String)
    (unmarshal : String → α → α × Option GoError) (zero : α) (req : Request)
    (resp : Response) (text : String)
    (hbefore : ∀ r, Call.httpDo r ∉ before) (hbefore' : ∀ b, Call.jsonUnmarshal b ∉ before)
    (hdo : c.httpClient.Do req = .ok resp) (hbody : resp.Body = .ok text)
    (hstatus : resp.StatusCode ∉ ([200, 201, 202, 203, 204, 205, 206] : List Int)) :
    (c.roundTrip lib before method endpoint body unmarshal zero).apiFailure req
      resp.StatusCode text := by
  intro hsent
  obtain ⟨h, hreq⟩ := roundTrip_sent lib c before method endpoint body unmarshal zero req
    hbefore hsent
  subst hreq
  rw [roundTrip_ok _ _ _ _ _ _ _ _ h,
    makeRequest_failure_status c _ unmarshal zero resp text hdo hbody hstatus]
  simp [hbefore']

theorem roundTrip_decodes {α : Type} (lib : Lib) (c : Client) (before : List Call)
    (method endpoint : String) (body : Option String)
    (unmarshal : String → α → α × Option GoError) (zero : α) (req : Request)
    (resp : Response) (text : String)
    (hbefore : ∀ r, Call.httpDo r ∉ before)
    (hdo : c.httpClient.Do req = .ok resp) (hbody : resp.Body = .ok text)
    (hstatus : resp.StatusCode ∈ ([200, 201, 202, 203, 204, 205, 206] : List Int)) :
    (c.roundTrip lib before method endpoint body unmarshal zero).decodes req text
      (unmarshal text zero) := by
  intro hsent
  obtain ⟨h, hreq⟩ := roundTrip_sent lib c before method endpoint body unmarshal zero req
    hbefore hsent
  subst hreq
  rw [roundTrip_ok _ _ _ _ _ _ _ _ h,
    makeRequest_success_status c _ unmarshal zero resp text hdo hbody hstatus]
  cases hdec : (unmarshal text zero).2 <;> simp [hdec]

theorem stopped_apiFailure {α : Type} (err : Option GoError) (req : Request) (code : Int)
    (text : String) :
    (({ result := none, err := err, calls := [] } : Ret α).apiFailure req code text) ∧
      (({ result := none, err := err, calls := [.jsonMarshal] } : Ret α).apiFailure
        req code text) := by
  constructor <;> intro hsent <;> simp at hsent

theorem stopped_decodes {α : Type} (err : Option GoError) (req : Request) (text : String)
    (decoded : α × Option GoError) :
    (({ result := none, err := err, calls := [] } : Ret α).decodes req text decoded) ∧
      (({ result := none, err := err, calls := [.jsonMarshal] } : Ret α).decodes
        req text decoded) := by
  constructor <;> intro hsent <;> simp at hsent

theorem dropResult_apiFailure {α : Type} (r : Ret α) (req : Request) (code : Int)
    (text : String) (h : r.apiFailure req code text) :
    r.dropResult.apiFailure req code text := by
  intro hsent
  exact (h hsent).2

theorem dropResult_decodes (r : Ret (List (String × String))) (req : Request) (text : String)
    (decoded : List (String × String) × Option GoError) (h : r.decodes req text decoded) :
    r.dropResult.decodes req text decoded := by
  intro hsent
  exact ⟨(h hsent).1, (h hsent).2.1⟩

theorem hasPrefix_append (s t pre : String) (h : strings.HasPrefix s pre = true) :
    strings.HasPrefix (s ++ t) pre = true := by
  unfold strings.HasPrefix at h ⊢
  rw [List.isPrefixOf_iff_prefix] at h ⊢
  rw [String.data_append]
  exact h.trans (List.prefix_append _ _)

theorem requestURL_of_slash (c : Client) (e : String) (h : strings.HasPrefix e "/" = true) :
    c.requestURL e = c.BaseUrl ++ e := by
  unfold Client.requestURL
  simp [h]

theorem roundTrip_calls_ne_nil {α : Type} (lib : Lib) (c : Client) (before : List Call)
    (method endpoint : String) (body : Option String)
    (unmarshal : String → α → α × Option GoError) (zero : α) :
    (c.roundTrip lib before method endpoint body unmarshal zero).calls ≠ [] := by
  obtain ⟨rest, hcalls, -, -⟩ :=
    roundTrip_calls lib c before method endpoint body unmarshal zero
  rw [hcalls]
  simp

theorem roundTrip_head_marshal {α : Type} (lib : Lib) (c : Client)
    (method endpoint : String) (body : Option String)
    (unmarshal : String → α → α × Option GoError) (zero : α) :
    (c.roundTrip lib [.jsonMarshal] method endpoint body unmarshal zero).calls.head? =
      some .jsonMarshal := by
  obtain ⟨rest, hcalls, -, -⟩ :=
    roundTrip_calls lib c [.jsonMarshal] method endpoint body unmarshal zero
  rw [hcalls]
  rfl

theorem roundTrip_builds {α : Type} (lib : Lib) (c : Client) (before : List Call)
    (method endpoint : String) (body : Option String)
    (unmarshal : String → α → α × Option GoError) (zero : α) :
    buildsRequest (c.roundTrip lib before method endpoint body unmarshal zero).calls method
      (c.requestURL endpoint) body := by
  obtain ⟨rest, hcalls, -, -⟩ :=
    roundTrip_calls lib c before method endpoint body unmarshal zero
  unfold buildsRequest
  rw [hcalls]
  simp

theorem roundTrip_sendsRequest {α : Type} (lib : Lib) (c : Client) (before : List Call)
    (method endpoint : String) (body : Option String)
    (unmarshal : String → α → α × Option GoError) (zero : α)
    (h : lib.newRequestErr method (c.requestURL endpoint) = none) :
    sendsRequest (c.roundTrip lib before method endpoint body unmarshal zero).calls method
      (c.requestURL endpoint) body :=
  ⟨c.prepared method endpoint body,
    roundTrip_sends lib c before method endpoint body unmarshal zero h, rfl, rfl, rfl⟩

theorem roundTrip_not_failsValidation {α : Type} (lib : Lib) (c : Client)
    (before : List Call) (method endpoint : String) (body : Option String)
    (unmarshal : String → α → α × Option GoError) (zero : α) :
    ¬ (c.roundTrip lib before method endpoint body unmarshal zero).failsValidation :=
  fun h => roundTrip_calls_ne_nil lib c before method endpoint body unmarshal zero h.2.2

theorem stopped_failsValidation {α : Type} (msg : String) :
    ({ result := none, err := some (.errorString msg), calls := [] } : Ret α).failsValidation :=
  ⟨rfl, ⟨msg, rfl⟩, rfl⟩

theorem marshal_failed_not_failsValidation {α : Type} (err : GoError) :
    ¬ ({ result := none, err := some err, calls := [.jsonMarshal] } : Ret α).failsValidation :=
  fun h => by simpa using h.2.2

theorem beq_empty_iff (s : String) : (s == "") = true ↔ s = "" := by
  simp

/-! ## The claims -/

/-- C1: when the transport answers a request with a status code other than 200..206 and the
body reads as `text`, `makeRequest` returns the `Error` whose `Code` is that status and
whose `Message` is `text` verbatim, leaves the target untouched and never calls
`json.Unmarshal`; and every resource operation that sent this request returns a nil result
(where it has one) together with that error, again without any call of `json.Unmarshal`. -/
theorem failure_status_gives_api_error (lib : Lib) (c : Client) (req : Request)
    (resp : Response) (text : String)
    (hdo : c.httpClient.Do req = .ok resp) (hbody : resp.Body = .ok text)
    (hstatus : resp.StatusCode ∉ ([200, 201, 202, 203, 204, 205, 206] : List Int)) :
    (∀ (α : Type) (unmarshal : String → α → α × Option GoError) (target : α),
      c.makeRequest req unmarshal target =
        { target := target, err := some (.api { Code := resp.StatusCode, Message := text }),
          calls := [.httpDo req] }) ∧
    (∀ input, (Users.Create lib c input).apiFailure req resp.StatusCode text) ∧
    (∀ uid, (Users.Get lib c uid).apiFailure req resp.StatusCode text) ∧
    (∀ input, (Users.List lib c input).apiFailure req resp.StatusCode text) ∧
    (∀ uid input, (Users.UpdateAttributes lib c uid input).apiFailure req resp.StatusCode
      text) ∧
    (∀ uid event, (Users.AddEvent lib c uid event).apiFailure req resp.StatusCode text) ∧
    (∀ input, (Lists.CreateList lib c input).apiFailure req resp.StatusCode text) ∧
    (∀ input, (Lists.GetAllLists lib c input).apiFailure req resp.StatusCode text) ∧
    (∀ id, (Lists.GetList lib c id).apiFailure req resp.StatusCode text) ∧
    (∀ id input, (Lists.UpdateList lib c id input).apiFailure req resp.StatusCode text) ∧
    (∀ id, (Lists.ArchiveList lib c id).apiFailure req resp.StatusCode text) ∧
    (∀ id input, (Lists.SubscribeList lib c id input).apiFailure req resp.StatusCode text) ∧
    (∀ id uid, (Lists.UnsubscribeList lib c id uid).apiFailure req resp.StatusCode text) := by
  have direct : ∀ (α : Type) (method endpoint : String) (body : Option String)
      (unmarshal : String → α → α × Option GoError) (zero : α),
      (c.roundTrip lib [] method endpoint body unmarshal zero).apiFailure req
        resp.StatusCode text :=
    fun α method endpoint body unmarshal zero =>
      roundTrip_apiFailure lib c [] method endpoint body unmarshal zero req resp text
        (by simp) (by simp) hdo hbody hstatus
  have marshalled : ∀ (α : Type) (method endpoint : String) (body : Option String)
      (unmarshal : String → α → α × Option GoError) (zero : α),
      (c.roundTrip lib [.jsonMarshal] method endpoint body unmarshal zero).apiFailure req
        resp.StatusCode text :=
    fun α method endpoint body unmarshal zero =>
      roundTrip_apiFailure lib c [.jsonMarshal] method endpoint body unmarshal zero req resp
        text (by simp) (by simp) hdo hbody hstatus
  refine ⟨fun α unmarshal target =>
    makeRequest_failure_status c req unmarshal target resp text hdo hbody hstatus,
    ?_, ?_, ?_, ?_, ?_, ?_, ?_, ?_, ?_, ?_, ?_, ?_⟩
  · intro input
    rw [Users.Create_eq]
    split
    · exact (stopped_apiFailure _ _ _ _).1
    · split
      · exact (stopped_apiFailure _ _ _ _).2
      · exact marshalled _ _ _ _ _ _
  · intro uid
    rw [Users.Get_eq]
    split
    · exact (stopped_apiFailure _ _ _ _).1
    · exact direct _ _ _ _ _ _
  · intro input
    rw [Users.List_eq]
    split
    · exact (stopped_apiFailure _ _ _ _).1
    · exact direct _ _ _ _ _ _
  · intro uid input
    rw [Users.UpdateAttributes_eq]
    split
    · exact (stopped_apiFailure _ _ _ _).1
    · split
      · exact (stopped_apiFailure _ _ _ _).2
      · exact marshalled _ _ _ _ _ _
  · intro uid event
    rw [Users.AddEvent_eq]
    split
    · intro hsent
      simp at hsent
    · split
      · intro hsent
        simp at hsent
      · exact dropResult_apiFailure _ _ _ _ (marshalled _ _ _ _ _ _)
  · intro input
    rw [Lists.CreateList_eq]
    split
    · exact (stopped_apiFailure _ _ _ _).1
    · split
      · exact (stopped_apiFailure _ _ _ _).2
      · exact marshalled _ _ _ _ _ _
  · intro input
    rw [Lists.GetAllLists_eq]
    split
    · exact (stopped_apiFailure _ _ _ _).1
    · exact direct _ _ _ _ _ _
  · intro id
    rw [Lists.GetList_eq]
    split
    · exact (stopped_apiFailure _ _ _ _).1
    · exact direct _ _ _ _ _ _
  · intro id input
    rw [Lists.UpdateList_eq]
    split
    · exact (stopped_apiFailure _ _ _ _).1
    · split
      · exact (stopped_apiFailure _ _ _ _).2
      · exact marshalled _ _ _ _ _ _
  · intro id
    rw [Lists.ArchiveList_eq]
    split
    · intro hsent
      simp at hsent
    · exact dropResult_apiFailure _ _ _ _ (direct _ _ _ _ _ _)
  · intro id input
    rw [Lists.SubscribeList_eq]
    split
    · exact (stopped_apiFailure _ _ _ _).1
    · split
      · exact (stopped_apiFailure _ _ _ _).1
      · split
        · exact (stopped_apiFailure _ _ _ _).2
        · exact marshalled _ _ _ _ _ _
  · intro id uid
    rw [Lists.UnsubscribeList_eq]
    split
    · intro hsent
      simp at hsent
    · exact dropResult_apiFailure _ _ _ _ (direct _ _ _ _ _ _)

/-- Witness of C1: the fake server answers `GET /users/nobody` with 500 and an empty body,
and `Users.Get` returns a nil result and the `Error` with code 500 and an empty message. -/
theorem failure_status_gives_api_error_witness :
    fakeClient.httpClient.Do (fakeClient.prepared "GET" "/users/nobody" none) =
        .ok { StatusCode := 500, Body := .ok "" } ∧
      (500 : Int) ∉ ([200, 201, 202, 203, 204, 205, 206] : List Int) ∧
      Call.httpDo (fakeClient.prepared "GET" "/users/nobody" none) ∈
        (Users.Get fakeLib fakeClient "nobody").calls ∧
      (Users.Get fakeLib fakeClient "nobody").result = none ∧
      (Users.Get fakeLib fakeClient "nobody").err =
        some (.api { Code := 500, Message := "" }) :=
  have hsent : Call.httpDo (fakeClient.prepared "GET" "/users/nobody" none) ∈
      (Users.Get fakeLib fakeClient "nobody").calls := by decide
  have h := (failure_status_gives_api_error fakeLib fakeClient
    (fakeClient.prepared "GET" "/users/nobody" none) { StatusCode := 500, Body := .ok "" } ""
    rfl rfl (by decide)).2.2.1 "nobody" hsent
  ⟨rfl, by decide, hsent, h.1, h.2.1⟩

/-- C2: when the transport answers a request with a status code in 200..206 and the body
reads as `text`, `makeRequest` hands `text` to `json.Unmarshal` and returns its error; so
every resource operation that sent this request returns the decoding error, which is nil
exactly when decoding succeeds, and then the result is non-nil and is the decoded output
(nil otherwise). -/
theorem success_status_decodes_body (lib : Lib) (c : Client) (req : Request)
    (resp : Response) (text : String)
    (hdo : c.httpClient.Do req = .ok resp) (hbody : resp.Body = .ok text)
    (hstatus : resp.StatusCode ∈ ([200, 201, 202, 203, 204, 205, 206] : List Int)) :
    (∀ (α : Type) (unmarshal : String → α → α × Option GoError) (target : α),
      c.makeRequest req unmarshal target =
        { target := (unmarshal text target).1, err := (unmarshal text target).2,
          calls := [.httpDo req, .jsonUnmarshal text] }) ∧
    (∀ input, (Users.Create lib c input).decodes req text
      (lib.unmarshalUserOutput text UserOutput.zero)) ∧
    (∀ uid, (Users.Get lib c uid).decodes req text
      (lib.unmarshalUserOutput text UserOutput.zero)) ∧
    (∀ input, (Users.List lib c input).decodes req text
      (lib.unmarshalListUserOutput text ListUserOutput.zero)) ∧
    (∀ uid input, (Users.UpdateAttributes lib c uid input).decodes req text
      (lib.unmarshalUserOutput text UserOutput.zero)) ∧
    (∀ uid event, (Users.AddEvent lib c uid event).decodes req text
      (lib.unmarshalStringMap text [])) ∧
    (∀ input, (Lists.CreateList lib c input).decodes req text
      (lib.unmarshalListOutput text ListOutput.zero)) ∧
    (∀ input, (Lists.GetAllLists lib c input).decodes req text
      (lib.unmarshalAllListOutput text AllListOutput.zero)) ∧
    (∀ id, (Lists.GetList lib c id).decodes req text
      (lib.unmarshalListOutput text ListOutput.zero)) ∧
    (∀ id input, (Lists.UpdateList lib c id input).decodes req text
      (lib.unmarshalListOutput text ListOutput.zero)) ∧
    (∀ id, (Lists.ArchiveList lib c id).decodes req text (lib.unmarshalStringMap text [])) ∧
    (∀ id input, (Lists.SubscribeList lib c id input).decodes req text
      (lib.unmarshalSubscribeListOutput text SubscribeListOutput.zero)) ∧
    (∀ id uid, (Lists.UnsubscribeList lib c id uid).decodes req text
      (lib.unmarshalStringMap text [])) := by
  have direct : ∀ (α : Type) (method endpoint : String) (body : Option String)
      (unmarshal : String → α → α × Option GoError) (zero : α),
      (c.roundTrip lib [] method endpoint body unmarshal zero).decodes req text
        (unmarshal text zero) :=
    fun α method endpoint body unmarshal zero =>
      roundTrip_decodes lib c [] method endpoint body unmarshal zero req resp text
        (by simp) hdo hbody hstatus
  have marshalled : ∀ (α : Type) (method endpoint : String) (body : Option String)
      (unmarshal : String → α → α × Option GoError) (zero : α),
      (c.roundTrip lib [.jsonMarshal] method endpoint body unmarshal zero).decodes req text
        (unmarshal text zero) :=
    fun α method endpoint body unmarshal zero =>
      roundTrip_decodes lib c [.jsonMarshal] method endpoint body unmarshal zero req resp
        text (by simp) hdo hbody hstatus
  refine ⟨fun α unmarshal target =>
    makeRequest_success_status c req unmarshal target resp text hdo hbody hstatus,
    ?_, ?_, ?_, ?_, ?_, ?_, ?_, ?_, ?_, ?_, ?_, ?_⟩
  · intro input
    rw [Users.Create_eq]
    split
    · exact (stopped_decodes _ _ _ _).1
    · split
      · exact (stopped_decodes _ _ _ _).2
      · exact marshalled _ _ _ _ _ _
  · intro uid
    rw [Users.Get_eq]
    split
    · exact (stopped_decodes _ _ _ _).1
    · exact direct _ _ _ _ _ _
  · intro input
    rw [Users.List_eq]
    split
    · exact (stopped_decodes _ _ _ _).1
    · exact direct _ _ _ _ _ _
  · intro uid input
    rw [Users.UpdateAttributes_eq]
    split
    · exact (stopped_decodes _ _ _ _).1
    · split
      · exact (stopped_decodes _ _ _ _).2
      · exact marshalled _ _ _ _ _ _
  · intro uid event
    rw [Users.AddEvent_eq]
    split
    · intro hsent
      simp at hsent
    · split
      · intro hsent
        simp at hsent
      · exact dropResult_decodes _ _ _ _ (marshalled _ _ _ _ _ _)
  · intro input
    rw [Lists.CreateList_eq]
    split
    · exact (stopped_decodes _ _ _ _).1
    · split
      · exact (stopped_decodes _ _ _ _).2
      · exact marshalled _ _ _ _ _ _
  · intro input
    rw [Lists.GetAllLists_eq]
    split
    · exact (stopped_decodes _ _ _ _).1
    · exact direct _ _ _ _ _ _
  · intro id
    rw [Lists.GetList_eq]
    split
    · exact (stopped_decodes _ _ _ _).1
    · exact direct _ _ _ _ _ _
  · intro id input
    rw [Lists.UpdateList_eq]
    split
    · exact (stopped_decodes _ _ _ _).1
    · split
      · exact (stopped_decodes _ _ _ _).2
      · exact marshalled _ _ _ _ _ _
  · intro id
    rw [Lists.ArchiveList_eq]
    split
    · intro hsent
      simp at hsent
    · exact dropResult_decodes _ _ _ _ (direct _ _ _ _ _ _)
  · intro id input
    rw [Lists.SubscribeList_eq]
    split
    · exact (stopped_decodes _ _ _ _).1
    · split
      · exact (stopped_decodes _ _ _ _).1
      · split
        · exact (stopped_decodes _ _ _ _).2
        · exact marshalled _ _ _ _ _ _
  · intro id uid
    rw [Lists.UnsubscribeList_eq]
    split
    · intro hsent
      simp at hsent
    · exact dropResult_decodes _ _ _ _ (direct _ _ _ _ _ _)

/-- Witness of C2, the scenario of `TestUsers_Get`: the fake server answers
`GET /users/123456789` with 200 and the user fixture, the body decodes to `fakeUser`, and
`Users.Get` returns a nil error and a user with the fixture's first name, last name and
email and its two devices, two lists and two segments in the body's order. -/
theorem success_status_decodes_body_witness :
    fakeClient.httpClient.Do (fakeClient.prepared "GET" "/users/123456789" none) =
        .ok { StatusCode := 200, Body := .ok fakeUserJSON } ∧
      fakeLib.unmarshalUserOutput fakeUserJSON UserOutput.zero = (fakeUser, none) ∧
      (Users.Get fakeLib fakeClient "123456789").err = none ∧
      (Users.Get fakeLib fakeClient "123456789").result.map
          (fun user => (user.FirstName, user.LastName, user.Email, user.Devices, user.Lists,
            user.Segments)) =
        some ("Heroshe", "Engineering", "someone@heroshe.com",
          [⟨"QWERTYUIOP", "ANDROID"⟩, ⟨"ASDFGHJKL", "APPLE"⟩],
          [⟨"ALL_USERS", true⟩, ⟨"MOBILE_USERS", false⟩],
          [⟨"ACTIVE_USERS", true⟩, ⟨"CHURNED_USERS", true⟩]) :=
  have hsent : Call.httpDo (fakeClient.prepared "GET" "/users/123456789" none) ∈
      (Users.Get fakeLib fakeClient "123456789").calls := by
    rw [Users.Get_eq, if_neg (by decide)]
    exact roundTrip_sends _ _ _ _ _ _ _ _ rfl
  have hdec : fakeLib.unmarshalUserOutput fakeUserJSON UserOutput.zero = (fakeUser, none) := by
    simp [fakeLib]
  have h := (success_status_decodes_body fakeLib fakeClient
    (fakeClient.prepared "GET" "/users/123456789" none)
    { StatusCode := 200, Body := .ok fakeUserJSON } fakeUserJSON
    rfl rfl (by decide)).2.2.1 "123456789" hsent
  ⟨rfl, hdec, by rw [h.2.1, hdec], by rw [h.2.2.1 (by rw [hdec]), hdec]; rfl⟩

/-- C3: for every pair of keys and every transport setting (nil or supplied), `New` returns
a client and a nil error if and only if both keys are non-empty; with an empty public key it
returns a nil client and the error "goengage: Public Key is required", and with a non-empty
public key and an empty private key a nil client and the error "goengage: Private Key is
required". -/
theorem New_succeeds_iff_keys (lib : Lib) (publicKey privateKey : String)
    (transport : Option HTTPClient) :
    ((∃ client config, New lib ⟨some ⟨publicKey, privateKey⟩, transport⟩ =
        .ret { client := some client, err := none, config := config }) ↔
      (publicKey ≠ "" ∧ privateKey ≠ "")) ∧
    (publicKey = "" →
      ∃ config, New lib ⟨some ⟨publicKey, privateKey⟩, transport⟩ =
        .ret { client := none,
               err := some (.errorString "goengage: Public Key is required"),
               config := config }) ∧
    (publicKey ≠ "" → privateKey = "" →
      ∃ config, New lib ⟨some ⟨publicKey, privateKey⟩, transport⟩ =
        .ret { client := none,
               err := some (.errorString "goengage: Private Key is required"),
               config := config }) := by
  by_cases hpub : publicKey = ""
  · subst hpub
    refine ⟨⟨?_, fun h => absurd rfl h.1⟩, fun _ => ⟨_, rfl⟩, fun h => absurd rfl h⟩
    rintro ⟨client, config, h⟩
    simp [New, validateConfig] at h
  · by_cases hpriv : privateKey = ""
    · subst hpriv
      refine ⟨⟨?_, fun h => absurd rfl h.2⟩, fun h => absurd h hpub, fun _ _ => ?_⟩
      · rintro ⟨client, config, h⟩
        simp [New, validateConfig, hpub] at h
      · exact ⟨⟨some ⟨publicKey, ""⟩, transport⟩, by simp [New, validateConfig, hpub]⟩
    · refine ⟨⟨fun _ => ⟨hpub, hpriv⟩, fun _ => ?_⟩, fun h => absurd h hpub,
        fun _ h => absurd h hpriv⟩
      cases transport with
      | none => exact ⟨_, _, by simp [New, validateConfig, hpub, hpriv]; exact ⟨rfl, rfl⟩⟩
      | some t => exact ⟨_, _, by simp [New, validateConfig, hpub, hpriv]; exact ⟨rfl, rfl⟩⟩

/-- Witness of C3: the credentials of `TestMain` give a client, an empty private key an error. -/
theorem New_succeeds_iff_keys_witness :
    (∃ client config, New fakeLib ⟨some ⟨"my_public_key", "my_private_key"⟩, none⟩ =
        .ret { client := some client, err := none, config := config }) ∧
      ∃ config, New fakeLib ⟨some ⟨"my_public_key", ""⟩, none⟩ =
        .ret { client := none,
               err := some (.errorString "goengage: Private Key is required"),
               config := config } :=
  ⟨(New_succeeds_iff_keys fakeLib "my_public_key" "my_private_key" none).1.2
      ⟨by decide, by decide⟩,
    (New_succeeds_iff_keys fakeLib "my_public_key" "" none).2.2 (by decide) rfl⟩

/-- C4, evaluated on the code: with nil `Credentials` (a fresh `NewConfig()`, or any config
without credentials) `New` does not return a validation error; `validateConfig` dereferences
the nil pointer and the call panics. -/
theorem New_without_credentials_panics (lib : Lib) (transport : Option HTTPClient) :
    New lib NewConfig = .panic nilDeref ∧
      New lib (NewConfig.WithHttpClient transport) = .panic nilDeref := by
  exact ⟨rfl, rfl⟩

/-- C5: for every base URL and every endpoint, the URL that `newRequest` passes to
`http.NewRequest`, and that the request it returns carries, is the base URL, then one `/`,
then the endpoint without its own leading `/`; so an endpoint written with a leading `/`
builds the same URL, and the same request, as the endpoint written without it. -/
theorem newRequest_url (lib : Lib) (c : Client) (method endpoint : String)
    (body : Option String) :
    (c.newRequest lib method endpoint body).2 =
        [Call.httpNewRequest method (c.BaseUrl ++ "/" ++ trimSlash endpoint) body] ∧
      (∀ req, (c.newRequest lib method endpoint body).1 = .ok req →
        req.URL = c.BaseUrl ++ "/" ++ trimSlash endpoint) ∧
      (c.newRequest lib method ("/" ++ endpoint) body).2 =
        [Call.httpNewRequest method (c.BaseUrl ++ "/" ++ endpoint) body] ∧
      (strings.HasPrefix endpoint "/" = false →
        c.newRequest lib method ("/" ++ endpoint) body =
          c.newRequest lib method endpoint body) := by
  refine ⟨?_, ?_, ?_, ?_⟩
  · rw [newRequest_calls, requestURL_eq]
  · intro req h
    rw [newRequest_eq] at h
    cases hreq : lib.newRequestErr method (c.requestURL endpoint) with
    | some err => simp [hreq] at h
    | none =>
      simp [hreq] at h
      rw [← h, ← requestURL_eq]
      rfl
  · rw [newRequest_calls, requestURL_slash_append]
  · intro h
    rw [newRequest_eq, newRequest_eq]
    unfold Client.prepared
    rw [requestURL_slash_append, requestURL_plain c endpoint h]

/-- Witness of C5: on the default base URL the endpoints `users` and `/users` build the same
request, for the URL `https://api.engage.so/v1/users`. -/
theorem newRequest_url_witness :
    ({ fakeClient with BaseUrl := apiUrl }.newRequest fakeLib "GET" "users" none).2 =
        [Call.httpNewRequest "GET" "https://api.engage.so/v1/users" none] ∧
      { fakeClient with BaseUrl := apiUrl }.newRequest fakeLib "GET" "/users" none =
        { fakeClient with BaseUrl := apiUrl }.newRequest fakeLib "GET" "users" none :=
  ⟨(newRequest_url fakeLib { fakeClient with BaseUrl := apiUrl } "GET" "users" none).1,
    (newRequest_url fakeLib { fakeClient with BaseUrl := apiUrl } "GET" "users" none).2.2.2
      rfl⟩

/-- C6: with both `NextCursor` and `PrevCursor` set, whatever `Limit` is, `Users.List` and
`Lists.GetAllLists` return a nil result and the error "goengage: Cannot use Next and Prev
cursor at the same time", and make no call at all: no request is built or sent. -/
theorem both_cursors_rejected (lib : Lib) (c : Client) (limit : Option Int)
    (next prev : String) :
    Users.List lib c ⟨limit, some next, some prev⟩ =
        { result := none,
          err := some
            (.errorString "goengage: Cannot use Next and Prev cursor at the same time"),
          calls := [] } ∧
      Lists.GetAllLists lib c ⟨limit, some next, some prev⟩ =
        { result := none,
          err := some
            (.errorString "goengage: Cannot use Next and Prev cursor at the same time"),
          calls := [] } ∧
      noRequest (Users.List lib c ⟨limit, some next, some prev⟩).calls ∧
      noRequest (Lists.GetAllLists lib c ⟨limit, some next, some prev⟩).calls := by
  have h1 : Users.List lib c ⟨limit, some next, some prev⟩ =
      { result := none,
        err := some
          (.errorString "goengage: Cannot use Next and Prev cursor at the same time"),
        calls := [] } := rfl
  have h2 : Lists.GetAllLists lib c ⟨limit, some next, some prev⟩ =
      { result := none,
        err := some
          (.errorString "goengage: Cannot use Next and Prev cursor at the same time"),
        calls := [] } := rfl
  refine ⟨h1, h2, ?_, ?_⟩
  · rw [h1]
    simp [noRequest]
  · rw [h2]
    simp [noRequest]

/-- C7, evaluated on the code: `Lists.UnsubscribeList` checks `id` twice and never `uid`.
With a non-empty id and an empty uid it does not stop at a validation guard: it builds the
request `DELETE {base}/lists/{id}/subscribers/` and, when `http.NewRequest` accepts it,
sends it. -/
theorem UnsubscribeList_empty_uid_not_rejected (lib : Lib) (c : Client) (id : String)
    (hid : id ≠ "") :
    ¬ (Lists.UnsubscribeList lib c id "").failsValidation ∧
      buildsRequest (Lists.UnsubscribeList lib c id "").calls "DELETE"
        (c.BaseUrl ++ ("/lists/" ++ id ++ "/subscribers/" ++ "")) none ∧
      (lib.newRequestErr "DELETE" (c.BaseUrl ++ ("/lists/" ++ id ++ "/subscribers/" ++ "")) =
          none →
        sendsRequest (Lists.UnsubscribeList lib c id "").calls "DELETE"
          (c.BaseUrl ++ ("/lists/" ++ id ++ "/subscribers/" ++ "")) none) := by
  have hurl : c.requestURL ("/lists/" ++ id ++ "/subscribers/" ++ "") =
      c.BaseUrl ++ ("/lists/" ++ id ++ "/subscribers/" ++ "") :=
    requestURL_of_slash c _
      (hasPrefix_append _ _ _ (hasPrefix_append _ _ _ (hasPrefix_append _ _ _ rfl)))
  have hguard : ¬ ((id == "") = true) := fun h => hid ((beq_empty_iff id).1 h)
  rw [Lists.UnsubscribeList_eq, if_neg hguard, ← hurl]
  refine ⟨fun h => roundTrip_calls_ne_nil lib c [] _ _ _ _ _ h.2, ?_, ?_⟩
  · exact roundTrip_builds lib c [] _ _ _ _ _
  · exact fun h => roundTrip_sendsRequest lib c [] _ _ _ _ _ h

/-- Witness of C7 on the fixtures: `UnsubscribeList(fakeList.Id, "")` sends
`DELETE /lists/ASDEWSDEWQQASZXDSED/subscribers/` to the fake server. -/
theorem UnsubscribeList_empty_uid_not_rejected_witness :
    fakeList.Id ≠ "" ∧
      sendsRequest (Lists.UnsubscribeList fakeLib fakeClient fakeList.Id "").calls "DELETE"
        (fakeClient.BaseUrl ++ ("/lists/" ++ fakeList.Id ++ "/subscribers/" ++ "")) none :=
  ⟨by decide,
    (UnsubscribeList_empty_uid_not_rejected fakeLib fakeClient fakeList.Id (by decide)).2.2
      rfl⟩

/-- C8: `Lists.SubscribeList` stops at a validation guard (nil result, an `errors.New` error,
no call made, so no request built or sent) exactly when `id` is empty or both `Email` and
`Number` are nil; with a non-empty id and `Email` or `Number` set, even to an empty string,
it goes on to marshal the input and, once marshalled, to build the request
`POST {base}/lists/{id}/subscribers` with the payload, which it sends when `http.NewRequest`
accepts it. -/
theorem SubscribeList_validation (lib : Lib) (c : Client) (id : String)
    (input : SubscribeListInput) :
    ((Lists.SubscribeList lib c id input).failsValidation ↔
      (id = "" ∨ (input.Email = none ∧ input.Number = none))) ∧
    (id ≠ "" → (input.Email ≠ none ∨ input.Number ≠ none) →
      (Lists.SubscribeList lib c id input).calls.head? = some .jsonMarshal ∧
      ∀ payload, lib.marshalSubscribeListInput input = .ok payload →
        buildsRequest (Lists.SubscribeList lib c id input).calls "POST"
          (c.BaseUrl ++ ("/lists/" ++ id ++ "/subscribers")) (some payload) ∧
        (lib.newRequestErr "POST" (c.BaseUrl ++ ("/lists/" ++ id ++ "/subscribers")) = none →
          sendsRequest (Lists.SubscribeList lib c id input).calls "POST"
            (c.BaseUrl ++ ("/lists/" ++ id ++ "/subscribers")) (some payload))) := by
  have hurl : c.requestURL ("/lists/" ++ id ++ "/subscribers") =
      c.BaseUrl ++ ("/lists/" ++ id ++ "/subscribers") :=
    requestURL_of_slash c _ (hasPrefix_append _ _ _ (hasPrefix_append _ _ _ rfl))
  rw [Lists.SubscribeList_eq, ← hurl]
  by_cases hcontact : (input.Email.isNone && input.Number.isNone) = true
  · have hboth : input.Email = none ∧ input.Number = none := by
      simpa [Option.isNone_iff_eq_none] using hcontact
    rw [if_pos hcontact]
    refine ⟨⟨fun _ => Or.inr hboth, fun _ => stopped_failsValidation _⟩, ?_⟩
    intro _ hset
    rcases hset with h | h
    · exact absurd hboth.1 h
    · exact absurd hboth.2 h
  · have hnot : ¬ (input.Email = none ∧ input.Number = none) := by
      simpa [Option.isNone_iff_eq_none] using hcontact
    rw [if_neg hcontact]
    by_cases hid : id = ""
    · have hguard : (id == "") = true := (beq_empty_iff id).2 hid
      rw [if_pos hguard]
      exact ⟨⟨fun _ => Or.inl hid, fun _ => stopped_failsValidation _⟩,
        fun h => absurd hid h⟩
    · have hguard : ¬ ((id == "") = true) := fun h => hid ((beq_empty_iff id).1 h)
      rw [if_neg hguard]
      cases hm : lib.marshalSubscribeListInput input with
      | error err =>
        refine ⟨⟨fun h => absurd h (marshal_failed_not_failsValidation err), ?_⟩, ?_⟩
        · rintro (h | h)
          · exact absurd h hid
          · exact absurd h hnot
        · intro _ _
          exact ⟨rfl, fun payload h => by simp at h⟩
      | ok payload =>
        refine ⟨⟨fun h => absurd h (roundTrip_not_failsValidation lib c _ _ _ _ _ _), ?_⟩, ?_⟩
        · rintro (h | h)
          · exact absurd h hid
          · exact absurd h hnot
        · intro _ _
          refine ⟨roundTrip_head_marshal lib c _ _ _ _ _, fun payload' h => ?_⟩
          have hp : payload = payload' := by simpa using h
          subst hp
          exact ⟨roundTrip_builds lib c _ _ _ _ _ _,
            fun h => roundTrip_sendsRequest lib c _ _ _ _ _ _ h⟩

/-- Witness of C8 on the fixtures: with `Email` pointing at an empty string and the id of
`fakeList`, `SubscribeList` marshals the input and sends the POST. -/
theorem SubscribeList_validation_witness :
    fakeList.Id ≠ "" ∧
      (Lists.SubscribeList fakeLib fakeClient fakeList.Id
        ⟨none, none, some "", none, none, []⟩).calls.head? = some .jsonMarshal ∧
      sendsRequest (Lists.SubscribeList fakeLib fakeClient fakeList.Id
          ⟨none, none, some "", none, none, []⟩).calls "POST"
        (fakeClient.BaseUrl ++ ("/lists/" ++ fakeList.Id ++ "/subscribers"))
        (some "\x7b\"email\":\"\"\x7d") :=
  have h := (SubscribeList_validation fakeLib fakeClient fakeList.Id
    ⟨none, none, some "", none, none, []⟩).2 (by decide) (Or.inl (by simp))
  ⟨by decide, h.1, (h.2 _ rfl).2 rfl⟩

/-- C9: with a nil `Title`, `Lists.CreateList` returns a nil result and the error
"goengage: title is required" without making any call, whereas `Lists.UpdateList` with the
same input and any non-empty id does not stop at a validation guard: it marshals the input
and, once marshalled, builds the request `PUT {base}/lists/{id}` with the payload, which it
sends when `http.NewRequest` accepts it. -/
theorem title_required_on_create_only (lib : Lib) (c : Client)
    (input : CreateUpdateListInput) (htitle : input.Title = none) :
    Lists.CreateList lib c input =
        { result := none, err := some (.errorString "goengage: title is required"),
          calls := [] } ∧
      noRequest (Lists.CreateList lib c input).calls ∧
      ∀ id, id ≠ "" →
        ¬ (Lists.UpdateList lib c id input).failsValidation ∧
        (Lists.UpdateList lib c id input).calls.head? = some .jsonMarshal ∧
        ∀ payload, lib.marshalCreateUpdateListInput input = .ok payload →
          buildsRequest (Lists.UpdateList lib c id input).calls "PUT"
            (c.BaseUrl ++ ("/lists/" ++ id)) (some payload) ∧
          (lib.newRequestErr "PUT" (c.BaseUrl ++ ("/lists/" ++ id)) = none →
            sendsRequest (Lists.UpdateList lib c id input).calls "PUT"
              (c.BaseUrl ++ ("/lists/" ++ id)) (some payload)) := by
  have hcreate : Lists.CreateList lib c input =
      { result := none, err := some (.errorString "goengage: title is required"),
        calls := [] } := by
    rw [Lists.CreateList_eq, if_pos (by simp [htitle])]
  refine ⟨hcreate, by rw [hcreate]; simp [noRequest], ?_⟩
  intro id hid
  have hurl : c.requestURL ("/lists/" ++ id) = c.BaseUrl ++ ("/lists/" ++ id) :=
    requestURL_of_slash c _ (hasPrefix_append _ _ _ rfl)
  have hguard : ¬ ((id == "") = true) := fun h => hid ((beq_empty_iff id).1 h)
  rw [Lists.UpdateList_eq, if_neg hguard, ← hurl]
  cases hm : lib.marshalCreateUpdateListInput input with
  | error err =>
    exact ⟨marshal_failed_not_failsValidation err, rfl, fun payload h => by simp at h⟩
  | ok payload =>
    refine ⟨roundTrip_not_failsValidation lib c _ _ _ _ _ _,
      roundTrip_head_marshal lib c _ _ _ _ _, fun payload' h => ?_⟩
    have hp : payload = payload' := by simpa using h
    subst hp
    exact ⟨roundTrip_builds lib c _ _ _ _ _ _,
      fun h => roundTrip_sendsRequest lib c _ _ _ _ _ _ h⟩

/-- Witness of C9 on the fixtures: an input with only a description is refused by
`CreateList` and sent as `PUT /lists/ASDEWSDEWQQASZXDSED` by `UpdateList`. -/
theorem title_required_on_create_only_witness :
    (Lists.CreateList fakeLib fakeClient ⟨none, some "Waiting List", none, none⟩).err =
        some (.errorString "goengage: title is required") ∧
      sendsRequest
        (Lists.UpdateList fakeLib fakeClient fakeList.Id
          ⟨none, some "Waiting List", none, none⟩).calls
        "PUT" (fakeClient.BaseUrl ++ ("/lists/" ++ fakeList.Id))
        (some "\x7b\"description\":\"Waiting List\"\x7d") :=
  have h := title_required_on_create_only fakeLib fakeClient
    ⟨none, some "Waiting List", none, none⟩ rfl
  ⟨by rw [h.1], ((h.2.2 fakeList.Id (by decide)).2.2 _ rfl).2 rfl⟩

/-- C10: each operation that takes an identifier stops at a validation guard (nil result
where it has one, an `errors.New` error, and no call made, so no request built or sent)
exactly when the identifier is empty, whatever its other arguments: `Users.Create` on
`input.Id`, `Users.Get`, `Users.UpdateAttributes` and `Users.AddEvent` on `uid`, and
`Lists.GetList`, `Lists.UpdateList` and `Lists.ArchiveList` on `id`. -/
theorem empty_identifier_rejected (lib : Lib) (c : Client) :
    (∀ input, (Users.Create lib c input).failsValidation ↔ input.Id = "") ∧
    (∀ uid, (Users.Get lib c uid).failsValidation ↔ uid = "") ∧
    (∀ uid input, (Users.UpdateAttributes lib c uid input).failsValidation ↔ uid = "") ∧
    (∀ uid event, (Users.AddEvent lib c uid event).failsValidation ↔ uid = "") ∧
    (∀ id, (Lists.GetList lib c id).failsValidation ↔ id = "") ∧
    (∀ id input, (Lists.UpdateList lib c id input).failsValidation ↔ id = "") ∧
    (∀ id, (Lists.ArchiveList lib c id).failsValidation ↔ id = "") := by
  have guard : ∀ id : String, id ≠ "" → ¬ ((id == "") = true) :=
    fun id hid h => hid ((beq_empty_iff id).1 h)
  refine ⟨?_, ?_, ?_, ?_, ?_, ?_, ?_⟩
  · intro input
    rw [Users.Create_eq]
    by_cases hid : input.Id = ""
    · rw [if_pos ((beq_empty_iff _).2 hid)]
      exact ⟨fun _ => hid, fun _ => stopped_failsValidation _⟩
    · rw [if_neg (guard _ hid)]
      refine ⟨fun h => absurd h ?_, fun h => absurd h hid⟩
      split
      · exact marshal_failed_not_failsValidation _
      · exact roundTrip_not_failsValidation lib c _ _ _ _ _ _
  · intro uid
    rw [Users.Get_eq]
    by_cases hid : uid = ""
    · rw [if_pos ((beq_empty_iff _).2 hid)]
      exact ⟨fun _ => hid, fun _ => stopped_failsValidation _⟩
    · rw [if_neg (guard _ hid)]
      exact ⟨fun h => absurd h (roundTrip_not_failsValidation lib c _ _ _ _ _ _),
        fun h => absurd h hid⟩
  · intro uid input
    rw [Users.UpdateAttributes_eq]
    by_cases hid : uid = ""
    · rw [if_pos ((beq_empty_iff _).2 hid)]
      exact ⟨fun _ => hid, fun _ => stopped_failsValidation _⟩
    · rw [if_neg (guard _ hid)]
      refine ⟨fun h => absurd h ?_, fun h => absurd h hid⟩
      split
      · exact marshal_failed_not_failsValidation _
      · exact roundTrip_not_failsValidation lib c _ _ _ _ _ _
  · intro uid event
    rw [Users.AddEvent_eq]
    by_cases hid : uid = ""
    · rw [if_pos ((beq_empty_iff _).2 hid)]
      exact ⟨fun _ => hid, fun _ => ⟨⟨_, rfl⟩, rfl⟩⟩
    · rw [if_neg (guard _ hid)]
      refine ⟨fun h => absurd h.2 ?_, fun h => absurd h hid⟩
      split
      · simp
      · exact roundTrip_calls_ne_nil lib c _ _ _ _ _ _
  · intro id
    rw [Lists.GetList_eq]
    by_cases hid : id = ""
    · rw [if_pos ((beq_empty_iff _).2 hid)]
      exact ⟨fun _ => hid, fun _ => stopped_failsValidation _⟩
    · rw [if_neg (guard _ hid)]
      exact ⟨fun h => absurd h (roundTrip_not_failsValidation lib c _ _ _ _ _ _),
        fun h => absurd h hid⟩
  · intro id input
    rw [Lists.UpdateList_eq]
    by_cases hid : id = ""
    · rw [if_pos ((beq_empty_iff _).2 hid)]
      exact ⟨fun _ => hid, fun _ => stopped_failsValidation _⟩
    · rw [if_neg (guard _ hid)]
      refine ⟨fun h => absurd h ?_, fun h => absurd h hid⟩
      split
      · exact marshal_failed_not_failsValidation _
      · exact roundTrip_not_failsValidation lib c _ _ _ _ _ _
  · intro id
    rw [Lists.ArchiveList_eq]
    by_cases hid : id = ""
    · rw [if_pos ((beq_empty_iff _).2 hid)]
      exact ⟨fun _ => hid, fun _ => ⟨⟨_, rfl⟩, rfl⟩⟩
    · rw [if_neg (guard _ hid)]
      exact ⟨fun h => absurd h.2 (roundTrip_calls_ne_nil lib c _ _ _ _ _ _),
        fun h => absurd h hid⟩

/-! ## The query of `Users.List` and `Lists.GetAllLists` -/

theorem queryEscape_unreserved (s : String)
    (h : ∀ ch ∈ s.data, unreservedByte ch.toNat = true) : url.QueryEscape s = s := by
  rcases s with ⟨cs⟩
  unfold url.QueryEscape
  congr 1
  induction cs with
  | nil => rfl
  | cons ch rest ih =>
    have hch := h ch (List.mem_cons_self _ _)
    have hlt : ch.toNat < 128 := by
      simp only [unreservedByte, Bool.or_eq_true, Bool.and_eq_true, decide_eq_true_eq,
        beq_iff_eq] at hch
      omega
    have h32 : ¬ (ch.toNat = 32) := by
      simp only [unreservedByte, Bool.or_eq_true, Bool.and_eq_true, decide_eq_true_eq,
        beq_iff_eq] at hch
      omega
    have hrest := ih (fun c hc => h c (List.mem_cons_of_mem _ hc))
    simp only [List.flatMap_cons, List.flatMap_append] at hrest ⊢
    rw [hrest]
    simp [utf8Bytes, hlt, escapeByte, h32, hch]

theorem digitChar_unreserved :
    ∀ k, k < 10 → unreservedByte (Nat.digitChar k).toNat = true := by
  decide

theorem toDigitsCore_unreserved (fuel : Nat) :
    ∀ (n : Nat) (ds : List Char), (∀ c ∈ ds, unreservedByte c.toNat = true) →
      ∀ c ∈ Nat.toDigitsCore 10 fuel n ds, unreservedByte c.toNat = true := by
  induction fuel with
  | zero =>
    intro n ds hds c hc
    simp only [Nat.toDigitsCore] at hc
    exact hds c hc
  | succ fuel ih =>
    intro n ds hds c hc
    have hd : ∀ c ∈ Nat.digitChar (n % 10) :: ds, unreservedByte c.toNat = true := by
      intro c hc
      rcases List.mem_cons.1 hc with h | h
      · rw [h]
        exact digitChar_unreserved _ (Nat.mod_lt _ (by decide))
      · exact hds c h
    simp only [Nat.toDigitsCore] at hc
    split at hc
    · exact hd c hc
    · exact ih _ _ hd c hc

theorem natRepr_unreserved (n : Nat) :
    ∀ c ∈ (Nat.repr n).data, unreservedByte c.toNat = true := by
  intro c hc
  exact toDigitsCore_unreserved _ _ [] (by simp) c hc

theorem itoa_unreserved (i : Int) :
    ∀ c ∈ (strconv.Itoa i).data, unreservedByte c.toNat = true := by
  intro c hc
  cases i with
  | ofNat n => exact natRepr_unreserved n c hc
  | negSucc n =>
    have h : (strconv.Itoa (Int.negSucc n)).data = '-' :: (Nat.repr (n + 1)).data := rfl
    rw [h] at hc
    rcases List.mem_cons.1 hc with h | h
    · rw [h]
      decide
    · exact natRepr_unreserved _ c h

theorem queryEscape_itoa (i : Int) : url.QueryEscape (strconv.Itoa i) = toString i :=
  queryEscape_unreserved _ (itoa_unreserved i)

theorem limit_lt_next : "limit" < "next_cursor" := by
  rw [String.lt_iff_toList_lt]
  decide

theorem limit_lt_prev : "limit" < "prev_cursor" := by
  rw [String.lt_iff_toList_lt]
  decide

theorem queryEscape_limit : url.QueryEscape "limit" = "limit" := by decide

theorem queryEscape_next : url.QueryEscape "next_cursor" = "next_cursor" := by decide

theorem queryEscape_prev : url.QueryEscape "prev_cursor" = "prev_cursor" := by decide

theorem encode_one (k v : String) :
    url.Values.Encode [(k, [v])] =
      "&".intercalate [url.QueryEscape k ++ "=" ++ url.QueryEscape v] := by
  simp [url.Values.Encode, sortStrings, insertKey, List.lookup]

theorem encode_two (k₁ k₂ v₁ v₂ : String) (h : k₁ < k₂) :
    url.Values.Encode [(k₁, [v₁]), (k₂, [v₂])] =
      "&".intercalate [url.QueryEscape k₁ ++ "=" ++ url.QueryEscape v₁,
        url.QueryEscape k₂ ++ "=" ++ url.QueryEscape v₂] := by
  have hne : (k₂ == k₁) = false := by
    rw [beq_eq_false_iff_ne]
    rintro rfl
    exact lt_irrefl _ h
  have hsort : sortStrings [k₁, k₂] = [k₁, k₂] := by
    show insertKey k₁ (insertKey k₂ []) = _
    simp only [insertKey]
    exact if_pos h
  unfold url.Values.Encode
  simp only [List.map, hsort, List.flatMap_cons, List.flatMap_nil, List.lookup,
    beq_self_eq_true, hne, Option.getD_some, List.append_nil, List.singleton_append]

theorem encode_paginatorParams (input : PaginatorInput)
    (h : input.NextCursor = none ∨ input.PrevCursor = none) :
    (paginatorParams input).Encode = specQuery input := by
  rcases input with ⟨limit, next, prev⟩
  cases limit with
  | none =>
    cases next with
    | none =>
      cases prev with
      | none => rfl
      | some p =>
        have hp : paginatorParams ⟨none, none, some p⟩ = [("prev_cursor", [p])] := rfl
        rw [hp, encode_one, queryEscape_prev]
        rfl
    | some n =>
      cases prev with
      | none =>
        have hp : paginatorParams ⟨none, some n, none⟩ = [("next_cursor", [n])] := rfl
        rw [hp, encode_one, queryEscape_next]
        rfl
      | some p => simp at h
  | some l =>
    cases next with
    | none =>
      cases prev with
      | none =>
        have hp : paginatorParams ⟨some l, none, none⟩ = [("limit", [strconv.Itoa l])] := rfl
        rw [hp, encode_one, queryEscape_limit, queryEscape_itoa]
        rfl
      | some p =>
        have hp : paginatorParams ⟨some l, none, some p⟩ =
            [("limit", [strconv.Itoa l]), ("prev_cursor", [p])] := rfl
        rw [hp, encode_two _ _ _ _ limit_lt_prev, queryEscape_limit, queryEscape_prev,
          queryEscape_itoa]
        rfl
    | some n =>
      cases prev with
      | none =>
        have hp : paginatorParams ⟨some l, some n, none⟩ =
            [("limit", [strconv.Itoa l]), ("next_cursor", [n])] := rfl
        rw [hp, encode_two _ _ _ _ limit_lt_next, queryEscape_limit, queryEscape_next,
          queryEscape_itoa]
        rfl
      | some p => simp at h

/-! ## The requests an operation builds -/

theorem makeRequest_builtRequests {α : Type} (c : Client) (req : Request)
    (unmarshal : String → α → α × Option GoError) (target : α) :
    builtRequests (c.makeRequest req unmarshal target).calls = [] := by
  unfold Client.makeRequest
  split
  · rfl
  · split
    · rfl
    · split <;> rfl

theorem roundTrip_builtRequests {α : Type} (lib : Lib) (c : Client) (before : List Call)
    (method endpoint : String) (body : Option String)
    (unmarshal : String → α → α × Option GoError) (zero : α) :
    builtRequests (c.roundTrip lib before method endpoint body unmarshal zero).calls =
      builtRequests before ++ [(method, c.requestURL endpoint, body)] := by
  obtain ⟨rest, hcalls, hmk, herr⟩ :=
    roundTrip_calls lib c before method endpoint body unmarshal zero
  have hrest : builtRequests rest = [] := by
    cases h : lib.newRequestErr method (c.requestURL endpoint) with
    | none =>
      rw [hmk h]
      exact makeRequest_builtRequests c _ unmarshal zero
    | some err =>
      rw [herr (by simp [h])]
      rfl
  rw [hcalls]
  unfold builtRequests at hrest ⊢
  rw [List.filterMap_append, List.filterMap_cons]
  simp only [hrest]

/-- C11: for every `PaginatorInput` that does not have both cursors set, the query that
`Users.List` and `Lists.GetAllLists` encode is `limit=<decimal value>` when `Limit` is set,
`next_cursor=<value>` when `NextCursor` is set and `prev_cursor=<value>` when `PrevCursor`
is set, nothing else, joined by `&` (a cursor in query-escaped form, which is the cursor
itself when it is made of letters, digits, `-`, `_`, `.` and `~`); the one request that
`Users.List` builds is a GET of the base URL followed by `/users?` and that query, the one
of `Lists.GetAllLists` a GET of the base URL followed by `/lists?` and that query; and with
all three fields nil the query is empty. -/
theorem paginator_query (lib : Lib) (c : Client) (input : PaginatorInput)
    (h : input.NextCursor = none ∨ input.PrevCursor = none) :
    (paginatorParams input).Encode = specQuery input ∧
      builtRequests (Users.List lib c input).calls =
        [("GET", c.BaseUrl ++ ("/users?" ++ specQuery input), none)] ∧
      builtRequests (Lists.GetAllLists lib c input).calls =
        [("GET", c.BaseUrl ++ ("/lists?" ++ specQuery input), none)] ∧
      (∀ cursor : String, (∀ ch ∈ cursor.data, unreservedByte ch.toNat = true) →
        url.QueryEscape cursor = cursor) ∧
      specQuery ⟨none, none, none⟩ = "" := by
  have hguard : ¬ ((input.NextCursor.isSome && input.PrevCursor.isSome) = true) := by
    rcases h with h | h <;> simp [h]
  refine ⟨encode_paginatorParams input h, ?_, ?_, queryEscape_unreserved, rfl⟩
  · rw [Users.List_eq, if_neg hguard, roundTrip_builtRequests, encode_paginatorParams input h,
      requestURL_of_slash c _ (hasPrefix_append "/users?" _ "/" rfl)]
    rfl
  · rw [Lists.GetAllLists_eq, if_neg hguard, roundTrip_builtRequests,
      encode_paginatorParams input h, requestURL_of_slash c _
        (hasPrefix_append "/lists?" _ "/" rfl)]
    rfl

/-- Witness of C11 on the fixtures: with limit 5 and the next cursor `a b&c`, `Users.List`
builds a GET of `/users?limit=5&next_cursor=a+b%26c`. -/
theorem paginator_query_witness :
    builtRequests (Users.List fakeLib fakeClient ⟨some 5, some "a b&c", none⟩).calls =
      [("GET", "http://127.0.0.1:8080/users?limit=5&next_cursor=a+b%26c", none)] :=
  (paginator_query fakeLib fakeClient ⟨some 5, some "a b&c", none⟩ (Or.inr rfl)).2.1.trans
    (by decide)

/-! ## The keys that `json.Marshal` writes -/

theorem keys_omitEmptyString (key s : String) :
    (omitEmptyString key s).map Prod.fst = keyIf (s != "") key := by
  unfold omitEmptyString keyIf
  by_cases h : s = "" <;> simp [h]

theorem keys_omitNilString (key : String) (p : Option String) :
    (omitNilString key p).map Prod.fst = keyIf p.isSome key := by
  cases p <;> rfl

theorem keys_omitNilBool (key : String) (p : Option Bool) :
    (omitNilBool key p).map Prod.fst = keyIf p.isSome key := by
  cases p <;> rfl

theorem keys_omitEmptyStrings (key : String) (xs : List String) :
    (omitEmptyStrings key xs).map Prod.fst = keyIf (!xs.isEmpty) key := by
  cases xs <;> rfl

theorem keys_omitNilTime (enc : JSONEncoder) (key : String) (p : Option Time)
    (ms : List Member) (h : omitNilTime enc key p = .ok ms) :
    ms.map Prod.fst = keyIf p.isSome key := by
  cases p with
  | none =>
    simp only [omitNilTime, Except.ok.injEq] at h
    rw [← h]
    rfl
  | some t =>
    simp only [omitNilTime] at h
    split at h
    · simp at h
    · simp only [Except.ok.injEq] at h
      rw [← h]
      rfl

theorem keys_omitEmptyMap (enc : JSONEncoder) (key : String) (m : List (String × Value))
    (ms : List Member) (h : omitEmptyMap enc key m = .ok ms) :
    ms.map Prod.fst = keyIf (!m.isEmpty) key := by
  cases m with
  | nil =>
    simp only [omitEmptyMap, List.isEmpty_nil, if_true, Except.ok.injEq] at h
    rw [← h]
    rfl
  | cons kv rest =>
    simp only [omitEmptyMap, List.isEmpty_cons, Bool.false_eq_true, if_false] at h
    split at h
    · simp at h
    · simp only [Except.ok.injEq] at h
      rw [← h]
      rfl

theorem keys_omitNilValue (enc : JSONEncoder) (key : String) (v : Value)
    (ms : List Member) (h : omitNilValue enc key v = .ok ms) :
    ms.map Prod.fst = keyIf (!v.isNull) key := by
  unfold omitNilValue at h
  split at h
  · simp only [Except.ok.injEq] at h
    rw [← h]
    rfl
  · rename_i hv
    have hnull : v.isNull = false := by
      cases v <;> first | rfl | exact absurd rfl (hv)
    split at h
    · simp at h
    · simp only [Except.ok.injEq] at h
      rw [← h, hnull]
      rfl

theorem keys_membersCreateUserInput (enc : JSONEncoder) (input : CreateUserInput)
    (ms : List Member) (h : membersCreateUserInput enc input = .ok ms) :
    ms.map Prod.fst = keysCreateUserInput input := by
  unfold membersCreateUserInput at h
  split at h
  · simp at h
  · rename_i createdAt hcreated
    split at h
    · simp at h
    · rename_i metadata hmeta
      simp only [Except.ok.injEq] at h
      rw [← h]
      simp only [List.map_append, keys_omitEmptyString, keys_omitNilString,
        keys_omitEmptyStrings, keys_omitNilTime enc _ _ _ hcreated,
        keys_omitEmptyMap enc _ _ _ hmeta, keysCreateUserInput]

theorem keys_membersUpdateUserAttributesInput (enc : JSONEncoder)
    (input : UpdateUserAttributesInput) (ms : List Member)
    (h : membersUpdateUserAttributesInput enc input = .ok ms) :
    ms.map Prod.fst = keysUpdateUserAttributesInput input := by
  unfold membersUpdateUserAttributesInput at h
  split at h
  · simp at h
  · rename_i createdAt hcreated
    split at h
    · simp at h
    · rename_i metadata hmeta
      simp only [Except.ok.injEq] at h
      rw [← h]
      simp only [List.map_append, keys_omitNilString, keys_omitEmptyStrings,
        keys_omitNilTime enc _ _ _ hcreated, keys_omitEmptyMap enc _ _ _ hmeta,
        keysUpdateUserAttributesInput]

theorem keys_membersAddUserEvent (enc : JSONEncoder) (event : AddUserEvent)
    (ms : List Member) (h : membersAddUserEvent enc event = .ok ms) :
    ms.map Prod.fst = keysAddUserEvent event := by
  unfold membersAddUserEvent at h
  split at h
  · simp at h
  · rename_i value hvalue
    split at h
    · simp at h
    · rename_i properties hproperties
      split at h
      · simp at h
      · rename_i timestamp htimestamp
        simp only [Except.ok.injEq] at h
        rw [← h]
        simp only [List.map_append, keys_omitEmptyString,
          keys_omitNilValue enc _ _ _ hvalue, keys_omitEmptyMap enc _ _ _ hproperties,
          keys_omitNilTime enc _ _ _ htimestamp, keysAddUserEvent]

theorem keys_membersCreateUpdateListInput (input : CreateUpdateListInput) :
    (membersCreateUpdateListInput input).map Prod.fst = keysCreateUpdateListInput input := by
  simp only [membersCreateUpdateListInput, List.map_append, keys_omitNilString,
    keys_omitNilBool, keysCreateUpdateListInput]

theorem keys_membersSubscribeListInput (enc : JSONEncoder) (input : SubscribeListInput)
    (ms : List Member) (h : membersSubscribeListInput enc input = .ok ms) :
    ms.map Prod.fst = keysSubscribeListInput input := by
  unfold membersSubscribeListInput at h
  split at h
  · simp at h
  · rename_i createdAt hcreated
    split at h
    · simp at h
    · rename_i metadata hmeta
      simp only [Except.ok.injEq] at h
      rw [← h]
      simp only [List.map_append, keys_omitNilString, keys_omitNilTime enc _ _ _ hcreated,
        keys_omitEmptyMap enc _ _ _ hmeta, keysSubscribeListInput]

theorem withEncoder_marshalsWith (lib : Lib) (enc : JSONEncoder) :
    (lib.withEncoder enc).marshalsWith enc :=
  ⟨rfl, rfl, rfl, rfl, rfl⟩

/-- C13: `json.Marshal` of the five input structs, by their struct tags, writes a JSON
object whose keys are exactly those of the fields that are set, in the order of declaration:
the key of a nil pointer (and of an empty string, slice or map, and of a nil interface) is
absent, not written with `null`, and the key of a non-nil pointer is present, also when it
points at an empty string or at `false`. With every optional field nil the encoding
succeeds and leaves only the identifier: the `CreateUserInput` with id `1234567` gives
exactly `{"id":"1234567"}`, which is the body of the request that `Users.Create` builds, and
the all-nil `CreateUpdateListInput`, `UpdateUserAttributesInput` and `SubscribeListInput`
give `{}`. -/
theorem omitempty_bodies (enc : JSONEncoder) :
    encodeCreateUserInput enc createUserFixture = .ok "\x7b\"id\":\"1234567\"\x7d" ∧
    encodeCreateUpdateListInput ⟨none, none, none, none⟩ = .ok "\x7b\x7d" ∧
    encodeUpdateUserAttributesInput enc ⟨none, none, none, none, [], none, none, none, []⟩ =
      .ok "\x7b\x7d" ∧
    encodeSubscribeListInput enc ⟨none, none, none, none, none, []⟩ = .ok "\x7b\x7d" ∧
    (∀ id, membersCreateUserInput enc ⟨id, none, none, none, none, [], none, none, none, []⟩ =
      .ok (omitEmptyString "id" id)) ∧
    (∀ name, membersAddUserEvent enc ⟨name, .null, [], none⟩ =
      .ok (omitEmptyString "event" name)) ∧
    (∀ input ms, membersCreateUserInput enc input = .ok ms →
      ms.map Prod.fst = keysCreateUserInput input ∧
        encodeCreateUserInput enc input = .ok (renderObject ms)) ∧
    (∀ input ms, membersUpdateUserAttributesInput enc input = .ok ms →
      ms.map Prod.fst = keysUpdateUserAttributesInput input ∧
        encodeUpdateUserAttributesInput enc input = .ok (renderObject ms)) ∧
    (∀ event ms, membersAddUserEvent enc event = .ok ms →
      ms.map Prod.fst = keysAddUserEvent event ∧
        encodeAddUserEvent enc event = .ok (renderObject ms)) ∧
    (∀ input, (membersCreateUpdateListInput input).map Prod.fst =
        keysCreateUpdateListInput input ∧
      encodeCreateUpdateListInput input =
        .ok (renderObject (membersCreateUpdateListInput input))) ∧
    (∀ input ms, membersSubscribeListInput enc input = .ok ms →
      ms.map Prod.fst = keysSubscribeListInput input ∧
        encodeSubscribeListInput enc input = .ok (renderObject ms)) ∧
    (∀ (lib : Lib) (c : Client), lib.marshalsWith enc →
      builtRequests (Users.Create lib c createUserFixture).calls =
        [("POST", c.BaseUrl ++ "/users", some "\x7b\"id\":\"1234567\"\x7d")]) := by
  refine ⟨rfl, rfl, rfl, rfl, ?_, ?_, ?_, ?_, ?_, ?_, ?_, ?_⟩
  · intro id
    simp [membersCreateUserInput, omitNilTime, omitEmptyMap, omitNilString,
      omitEmptyStrings]
  · intro name
    simp [membersAddUserEvent, omitNilTime, omitEmptyMap, omitNilValue]
  · intro input ms h
    exact ⟨keys_membersCreateUserInput enc input ms h, by
      unfold encodeCreateUserInput
      rw [h]
      rfl⟩
  · intro input ms h
    exact ⟨keys_membersUpdateUserAttributesInput enc input ms h, by
      unfold encodeUpdateUserAttributesInput
      rw [h]
      rfl⟩
  · intro event ms h
    exact ⟨keys_membersAddUserEvent enc event ms h, by
      unfold encodeAddUserEvent
      rw [h]
      rfl⟩
  · intro input
    exact ⟨keys_membersCreateUpdateListInput input, rfl⟩
  · intro input ms h
    exact ⟨keys_membersSubscribeListInput enc input ms h, by
      unfold encodeSubscribeListInput
      rw [h]
      rfl⟩
  · intro lib c hlib
    have hm : lib.marshalCreateUserInput createUserFixture =
        .ok "\x7b\"id\":\"1234567\"\x7d" := by
      rw [hlib.1]
      rfl
    have hg : ¬ ((createUserFixture.Id == "") = true) := by decide
    rw [Users.Create_eq, if_neg hg]
    simp only [hm]
    rw [roundTrip_builtRequests, requestURL_of_slash c "/users" rfl]
    rfl

/-- Witness of C13 on the fixtures: with encoding/json behind `json.Marshal`, the call of
`TestUsers_Create` sends the body `{"id":"1234567"}`, and an input whose `LastName` points
at an empty string is written with the key `last_name`. -/
theorem omitempty_bodies_witness :
    builtRequests
        (Users.Create (fakeLib.withEncoder fixtureEncoder) fakeClient createUserFixture).calls =
      [("POST", "http://127.0.0.1:8080/users", some "\x7b\"id\":\"1234567\"\x7d")] ∧
    encodeCreateUserInput fixtureEncoder
        { createUserFixture with LastName := some "" } =
      .ok "\x7b\"id\":\"1234567\",\"last_name\":\"\"\x7d" :=
  ⟨(omitempty_bodies fixtureEncoder).2.2.2.2.2.2.2.2.2.2.2 _ fakeClient
      (withEncoder_marshalsWith fakeLib fixtureEncoder),
    rfl⟩

/-! ## Result and error of the operations -/

theorem roundTrip_exactlyOne {α : Type} (lib : Lib) (c : Client) (before : List Call)
    (method endpoint : String) (body : Option String)
    (unmarshal : String → α → α × Option GoError) (zero : α) :
    (c.roundTrip lib before method endpoint body unmarshal zero).exactlyOne := by
  unfold Client.roundTrip
  split
  · exact Or.inl ⟨rfl, by simp⟩
  · rename_i req built _
    by_cases h : (c.makeRequest req unmarshal zero).err.isSome = true
    · simp only [h, if_true]
      refine Or.inl ⟨rfl, ?_⟩
      intro hnone
      have hnone' : (c.makeRequest req unmarshal zero).err = none := hnone
      simp [hnone'] at h
    · simp only [h]
      refine Or.inr ⟨by simp, ?_⟩
      cases herr : (c.makeRequest req unmarshal zero).err with
      | none => rfl
      | some err => simp [herr] at h

theorem stopped_exactlyOne {α : Type} (err : GoError) (calls : List Call) :
    ({ result := none, err := some err, calls := calls } : Ret α).exactlyOne :=
  Or.inl ⟨rfl, by simp⟩

theorem exactlyOne_on_struct (lib : Lib) (c : Client) :
    (∀ input, (Users.Create lib c input).exactlyOne) ∧
    (∀ uid, (Users.Get lib c uid).exactlyOne) ∧
    (∀ input, (Users.List lib c input).exactlyOne) ∧
    (∀ uid input, (Users.UpdateAttributes lib c uid input).exactlyOne) ∧
    (∀ input, (Lists.CreateList lib c input).exactlyOne) ∧
    (∀ input, (Lists.GetAllLists lib c input).exactlyOne) ∧
    (∀ id, (Lists.GetList lib c id).exactlyOne) ∧
    (∀ id input, (Lists.UpdateList lib c id input).exactlyOne) ∧
    (∀ id input, (Lists.SubscribeList lib c id input).exactlyOne) := by
  refine ⟨?_, ?_, ?_, ?_, ?_, ?_, ?_, ?_, ?_⟩
  · intro input
    rw [Users.Create_eq]
    split
    · exact stopped_exactlyOne _ _
    · split
      · exact stopped_exactlyOne _ _
      · exact roundTrip_exactlyOne lib c _ _ _ _ _ _
  · intro uid
    rw [Users.Get_eq]
    split
    · exact stopped_exactlyOne _ _
    · exact roundTrip_exactlyOne lib c _ _ _ _ _ _
  · intro input
    rw [Users.List_eq]
    split
    · exact stopped_exactlyOne _ _
    · exact roundTrip_exactlyOne lib c _ _ _ _ _ _
  · intro uid input
    rw [Users.UpdateAttributes_eq]
    split
    · exact stopped_exactlyOne _ _
    · split
      · exact stopped_exactlyOne _ _
      · exact roundTrip_exactlyOne lib c _ _ _ _ _ _
  · intro input
    rw [Lists.CreateList_eq]
    split
    · exact stopped_exactlyOne _ _
    · split
      · exact stopped_exactlyOne _ _
      · exact roundTrip_exactlyOne lib c _ _ _ _ _ _
  · intro input
    rw [Lists.GetAllLists_eq]
    split
    · exact stopped_exactlyOne _ _
    · exact roundTrip_exactlyOne lib c _ _ _ _ _ _
  · intro id
    rw [Lists.GetList_eq]
    split
    · exact stopped_exactlyOne _ _
    · exact roundTrip_exactlyOne lib c _ _ _ _ _ _
  · intro id input
    rw [Lists.UpdateList_eq]
    split
    · exact stopped_exactlyOne _ _
    · split
      · exact stopped_exactlyOne _ _
      · exact roundTrip_exactlyOne lib c _ _ _ _ _ _
  · intro id input
    rw [Lists.SubscribeList_eq]
    split
    · exact stopped_exactlyOne _ _
    · split
      · exact stopped_exactlyOne _ _
      · split
        · exact stopped_exactlyOne _ _
        · exact roundTrip_exactlyOne lib c _ _ _ _ _ _

/-! ## The endpoint table -/

theorem makeRequest_sentRequests {α : Type} (c : Client) (req : Request)
    (unmarshal : String → α → α × Option GoError) (target : α) :
    sentRequests (c.makeRequest req unmarshal target).calls = [req] := by
  unfold Client.makeRequest
  split
  · rfl
  · split
    · rfl
    · split <;> rfl

theorem roundTrip_followsTable {α : Type} (lib : Lib) (c : Client) (before : List Call)
    (method endpoint : String) (body : Option String)
    (unmarshal : String → α → α × Option GoError) (zero : α)
    (hbuilt : builtRequests before = []) (hsent : sentRequests before = []) :
    (c.roundTrip lib before method endpoint body unmarshal zero).followsTable lib method
      (c.requestURL endpoint) body := by
  refine ⟨?_, ?_, ?_⟩
  · rw [roundTrip_builtRequests, hbuilt]
    rfl
  · intro h
    obtain ⟨rest, hcalls, hmk, -⟩ :=
      roundTrip_calls lib c before method endpoint body unmarshal zero
    refine ⟨c.prepared method endpoint body, ?_, rfl, rfl, rfl⟩
    rw [hcalls, hmk h]
    unfold sentRequests at hsent ⊢
    rw [List.filterMap_append, hsent, List.filterMap_cons]
    exact makeRequest_sentRequests c _ unmarshal zero
  · intro e h
    rw [roundTrip_error _ _ _ _ _ _ _ _ _ h]
    refine ⟨?_, rfl⟩
    unfold sentRequests at hsent ⊢
    rw [List.filterMap_append, hsent]
    rfl

/-- C12, as amended: each operation whose input passes validation calls `http.NewRequest`
exactly once, with the method of the endpoint table and, as URL, the base URL followed by
the path of the table with the identifiers substituted as they are; when `http.NewRequest`
accepts them, that one request is built and sent, and when it rejects them no request is
built or sent and its error is returned. An operation that sends a body does so once
`json.Marshal` has returned the payload, which is the body of the request; when
`json.Marshal` fails the operation returns its error and builds no request. -/
theorem endpoint_table_once_serialised (lib : Lib) (c : Client) :
    (∀ input, input.Id ≠ "" →
      (∀ payload, lib.marshalCreateUserInput input = .ok payload →
        (Users.Create lib c input).followsTable lib "POST" (c.BaseUrl ++ "/users")
          (some payload)) ∧
      (∀ e, lib.marshalCreateUserInput input = .error e →
        (Users.Create lib c input).stopsAtMarshal e)) ∧
    (∀ uid, uid ≠ "" →
      (Users.Get lib c uid).followsTable lib "GET" (c.BaseUrl ++ ("/users/" ++ uid)) none) ∧
    (∀ uid input, uid ≠ "" →
      (∀ payload, lib.marshalUpdateUserAttributesInput input = .ok payload →
        (Users.UpdateAttributes lib c uid input).followsTable lib "PUT"
          (c.BaseUrl ++ ("/users/" ++ uid)) (some payload)) ∧
      (∀ e, lib.marshalUpdateUserAttributesInput input = .error e →
        (Users.UpdateAttributes lib c uid input).stopsAtMarshal e)) ∧
    (∀ uid event, uid ≠ "" →
      (∀ payload, lib.marshalAddUserEvent event = .ok payload →
        (Users.AddEvent lib c uid event).followsTable lib "PUT"
          (c.BaseUrl ++ ("/users/" ++ uid ++ "/events")) (some payload)) ∧
      (∀ e, lib.marshalAddUserEvent event = .error e →
        (Users.AddEvent lib c uid event).stopsAtMarshal e)) ∧
    (∀ input, input.Title ≠ none →
      (∀ payload, lib.marshalCreateUpdateListInput input = .ok payload →
        (Lists.CreateList lib c input).followsTable lib "POST" (c.BaseUrl ++ "/lists")
          (some payload)) ∧
      (∀ e, lib.marshalCreateUpdateListInput input = .error e →
        (Lists.CreateList lib c input).stopsAtMarshal e)) ∧
    (∀ id, id ≠ "" →
      (Lists.GetList lib c id).followsTable lib "GET" (c.BaseUrl ++ ("/lists/" ++ id)) none) ∧
    (∀ id input, id ≠ "" →
      (∀ payload, lib.marshalCreateUpdateListInput input = .ok payload →
        (Lists.UpdateList lib c id input).followsTable lib "PUT"
          (c.BaseUrl ++ ("/lists/" ++ id)) (some payload)) ∧
      (∀ e, lib.marshalCreateUpdateListInput input = .error e →
        (Lists.UpdateList lib c id input).stopsAtMarshal e)) ∧
    (∀ id, id ≠ "" →
      (Lists.ArchiveList lib c id).followsTable lib "DELETE"
        (c.BaseUrl ++ ("/lists/" ++ id)) none) ∧
    (∀ id input, id ≠ "" → (input.Email ≠ none ∨ input.Number ≠ none) →
      (∀ payload, lib.marshalSubscribeListInput input = .ok payload →
        (Lists.SubscribeList lib c id input).followsTable lib "POST"
          (c.BaseUrl ++ ("/lists/" ++ id ++ "/subscribers")) (some payload)) ∧
      (∀ e, lib.marshalSubscribeListInput input = .error e →
        (Lists.SubscribeList lib c id input).stopsAtMarshal e)) ∧
    (∀ id uid, id ≠ "" →
      (Lists.UnsubscribeList lib c id uid).followsTable lib "DELETE"
        (c.BaseUrl ++ ("/lists/" ++ id ++ "/subscribers/" ++ uid)) none) := by
  have guard : ∀ id : String, id ≠ "" → ¬ ((id == "") = true) :=
    fun id hid h => hid ((beq_empty_iff id).1 h)
  have users : ∀ uid : String, c.requestURL ("/users/" ++ uid) =
      c.BaseUrl ++ ("/users/" ++ uid) :=
    fun uid => requestURL_of_slash c _ (hasPrefix_append "/users/" uid "/" rfl)
  have lists : ∀ id : String, c.requestURL ("/lists/" ++ id) =
      c.BaseUrl ++ ("/lists/" ++ id) :=
    fun id => requestURL_of_slash c _ (hasPrefix_append "/lists/" id "/" rfl)
  have direct : ∀ (α : Type) (method endpoint : String) (body : Option String)
      (unmarshal : String → α → α × Option GoError) (zero : α),
      (c.roundTrip lib [] method endpoint body unmarshal zero).followsTable lib method
        (c.requestURL endpoint) body :=
    fun α method endpoint body unmarshal zero =>
      roundTrip_followsTable lib c [] method endpoint body unmarshal zero rfl rfl
  have marshalled : ∀ (α : Type) (method endpoint : String) (body : Option String)
      (unmarshal : String → α → α × Option GoError) (zero : α),
      (c.roundTrip lib [.jsonMarshal] method endpoint body unmarshal zero).followsTable lib
        method (c.requestURL endpoint) body :=
    fun α method endpoint body unmarshal zero =>
      roundTrip_followsTable lib c [.jsonMarshal] method endpoint body unmarshal zero rfl rfl
  refine ⟨?_, ?_, ?_, ?_, ?_, ?_, ?_, ?_, ?_, ?_⟩
  · intro input hid
    rw [Users.Create_eq, if_neg (guard _ hid)]
    refine ⟨fun payload hm => ?_, fun e hm => ?_⟩
    · simp only [hm]
      rw [← requestURL_of_slash c "/users" rfl]
      exact marshalled _ _ _ _ _ _
    · simp only [hm]
      exact ⟨rfl, rfl, rfl⟩
  · intro uid hid
    rw [Users.Get_eq, if_neg (guard _ hid), ← users]
    exact direct _ _ _ _ _ _
  · intro uid input hid
    rw [Users.UpdateAttributes_eq, if_neg (guard _ hid)]
    refine ⟨fun payload hm => ?_, fun e hm => ?_⟩
    · simp only [hm]
      rw [← users]
      exact marshalled _ _ _ _ _ _
    · simp only [hm]
      exact ⟨rfl, rfl, rfl⟩
  · intro uid event hid
    rw [Users.AddEvent_eq, if_neg (guard _ hid)]
    refine ⟨fun payload hm => ?_, fun e hm => ?_⟩
    · simp only [hm]
      rw [← requestURL_of_slash c _ (hasPrefix_append _ "/events" "/"
        (hasPrefix_append "/users/" uid "/" rfl))]
      exact marshalled _ _ _ _ _ _
    · simp only [hm]
      exact ⟨rfl, rfl⟩
  · intro input htitle
    have hg : ¬ (input.Title.isNone = true) := by
      simpa [Option.isNone_iff_eq_none] using htitle
    rw [Lists.CreateList_eq, if_neg hg]
    refine ⟨fun payload hm => ?_, fun e hm => ?_⟩
    · simp only [hm]
      rw [← requestURL_of_slash c "/lists" rfl]
      exact marshalled _ _ _ _ _ _
    · simp only [hm]
      exact ⟨rfl, rfl, rfl⟩
  · intro id hid
    rw [Lists.GetList_eq, if_neg (guard _ hid), ← lists]
    exact direct _ _ _ _ _ _
  · intro id input hid
    rw [Lists.UpdateList_eq, if_neg (guard _ hid)]
    refine ⟨fun payload hm => ?_, fun e hm => ?_⟩
    · simp only [hm]
      rw [← lists]
      exact marshalled _ _ _ _ _ _
    · simp only [hm]
      exact ⟨rfl, rfl, rfl⟩
  · intro id hid
    rw [Lists.ArchiveList_eq, if_neg (guard _ hid), ← lists]
    exact direct _ _ _ _ _ _
  · intro id input hid hcontact
    have hg : ¬ ((input.Email.isNone && input.Number.isNone) = true) := by
      rcases hcontact with h | h <;> simp [Option.isNone_iff_eq_none, h]
    rw [Lists.SubscribeList_eq, if_neg hg, if_neg (guard _ hid)]
    refine ⟨fun payload hm => ?_, fun e hm => ?_⟩
    · simp only [hm]
      rw [← requestURL_of_slash c _ (hasPrefix_append _ "/subscribers" "/"
        (hasPrefix_append "/lists/" id "/" rfl))]
      exact marshalled _ _ _ _ _ _
    · simp only [hm]
      exact ⟨rfl, rfl, rfl⟩
  · intro id uid hid
    rw [Lists.UnsubscribeList_eq, if_neg (guard _ hid),
      ← requestURL_of_slash c _ (hasPrefix_append _ uid "/"
        (hasPrefix_append _ "/subscribers/" "/" (hasPrefix_append "/lists/" id "/" rfl)))]
    exact direct _ _ _ _ _ _

/-- Witness of C12 as amended, the call of `TestUsers_AddEvent` without properties and
timestamp: `Users.AddEvent` for the uid of `fakeUser` builds one request,
`PUT /users/123456789/events`, whose body holds the event and its value, and sends it. -/
theorem endpoint_table_once_serialised_witness :
    fakeLib.marshalAddUserEvent ⟨"login", .string "yes", [], none⟩ =
        .ok "\x7b\"event\":\"login\",\"value\":\"yes\"\x7d" ∧
      builtRequests (Users.AddEvent fakeLib fakeClient "123456789"
          ⟨"login", .string "yes", [], none⟩).calls =
        [("PUT", "http://127.0.0.1:8080/users/123456789/events",
          some "\x7b\"event\":\"login\",\"value\":\"yes\"\x7d")] ∧
      (sentRequests (Users.AddEvent fakeLib fakeClient "123456789"
          ⟨"login", .string "yes", [], none⟩).calls).map (fun req => (req.Method, req.URL)) =
        [("PUT", "http://127.0.0.1:8080/users/123456789/events")] :=
  have h := ((endpoint_table_once_serialised fakeLib fakeClient).2.2.2.1 "123456789"
    ⟨"login", .string "yes", [], none⟩ (by decide)).1
    "\x7b\"event\":\"login\",\"value\":\"yes\"\x7d" rfl
  ⟨rfl, h.1.trans (by decide), by
    obtain ⟨req, hsent, hmethod, hurl, -⟩ := h.2.1 rfl
    rw [hsent, List.map_cons, List.map_nil, hmethod, hurl]
    decide⟩

/-- Counterexample to C12 as stated: a `CreateUserInput` with the id `1234567` passes the
guard of `Users.Create`, but its `CreatedAt` lies in the year 10000, which `json.Marshal`
refuses, and `Users.Create` returns that error without building any request. -/
theorem validated_input_builds_no_request :
    unencodableUser.Id = "1234567" ∧
      fakeLib.marshalCreateUserInput unencodableUser = .error yearOutOfRange ∧
      (Users.Create fakeLib fakeClient unencodableUser).calls = [.jsonMarshal] ∧
      builtRequests (Users.Create fakeLib fakeClient unencodableUser).calls = [] ∧
      (Users.Create fakeLib fakeClient unencodableUser).result = none ∧
      (Users.Create fakeLib fakeClient unencodableUser).err = some yearOutOfRange :=
  ⟨rfl, rfl, rfl, rfl, rfl, rfl⟩

/-! ## Result and error of the services -/

theorem UpdateAttributes_nil_eq (lib : Lib) (c : Client) (uid : String) :
    UserService.UpdateAttributes lib c uid none =
      .ret (if uid == "" then
          { result := none, err := some (.errorString "goengage: uid is required"),
            calls := [] }
        else
          c.roundTrip lib [.jsonMarshal] "PUT" ("/users/" ++ uid) (some nullPayload)
            lib.unmarshalUserOutput UserOutput.zero) := by
  rfl

theorem UpdateList_nil_eq (lib : Lib) (c : Client) (id : String) :
    ListService.UpdateList lib c id none =
      .ret (if id == "" then
          { result := none, err := some (.errorString "goengage: id is required"),
            calls := [] }
        else
          c.roundTrip lib [.jsonMarshal] "PUT" ("/lists/" ++ id) (some nullPayload)
            lib.unmarshalListOutput ListOutput.zero) := by
  rfl

/-- C14, as amended: each result-returning operation of the two services returns, and
returns exactly one of a non-nil result and a non-nil error, for every standard library and
every transport (so whether validation fails, the input does not marshal, the request
cannot be built, the transport fails, the status is a failure, or the status is a success
with a body that does or does not decode): `Create`, `List`, `CreateList`, `GetAllLists`
and `SubscribeList` for every non-nil input, `Get` and `GetList` for every identifier, and
`UpdateAttributes` and `UpdateList` for every input, nil included. -/
theorem exactly_one_for_non_nil_input (lib : Lib) (c : Client) :
    (∀ input, (UserService.Create lib c (some input)).exactlyOne) ∧
    (∀ uid, (UserService.Get lib c uid).exactlyOne) ∧
    (∀ input, (UserService.List lib c (some input)).exactlyOne) ∧
    (∀ uid input, (UserService.UpdateAttributes lib c uid input).exactlyOne) ∧
    (∀ input, (ListService.CreateList lib c (some input)).exactlyOne) ∧
    (∀ input, (ListService.GetAllLists lib c (some input)).exactlyOne) ∧
    (∀ id, (ListService.GetList lib c id).exactlyOne) ∧
    (∀ id input, (ListService.UpdateList lib c id input).exactlyOne) ∧
    (∀ id input, (ListService.SubscribeList lib c id (some input)).exactlyOne) := by
  have h := exactlyOne_on_struct lib c
  refine ⟨h.1, h.2.1, h.2.2.1, ?_, h.2.2.2.2.1, h.2.2.2.2.2.1, h.2.2.2.2.2.2.1, ?_,
    h.2.2.2.2.2.2.2.2⟩
  · intro uid input
    cases input with
    | some input => exact h.2.2.2.1 uid input
    | none =>
      rw [UpdateAttributes_nil_eq]
      show Ret.exactlyOne _
      split
      · exact stopped_exactlyOne _ _
      · exact roundTrip_exactlyOne lib c _ _ _ _ _ _
  · intro id input
    cases input with
    | some input => exact h.2.2.2.2.2.2.2.1 id input
    | none =>
      rw [UpdateList_nil_eq]
      show Ret.exactlyOne _
      split
      · exact stopped_exactlyOne _ _
      · exact roundTrip_exactlyOne lib c _ _ _ _ _ _

/-- Counterexample to C14 as stated: called with a nil input, `Create`, `List`,
`CreateList`, `GetAllLists` and `SubscribeList` read a field of the input first and panic,
so that neither a result nor an error is returned. -/
theorem nil_input_returns_nothing :
    UserService.Create fakeLib fakeClient none = .panic nilDeref ∧
      ¬ (UserService.Create fakeLib fakeClient none).exactlyOne ∧
      UserService.List fakeLib fakeClient none = .panic nilDeref ∧
      ListService.CreateList fakeLib fakeClient none = .panic nilDeref ∧
      ListService.GetAllLists fakeLib fakeClient none = .panic nilDeref ∧
      ListService.SubscribeList fakeLib fakeClient fakeList.Id none = .panic nilDeref :=
  ⟨rfl, fun h => h, rfl, rfl, rfl, rfl⟩

end GoEngage
